import Mathlib

/-!
Verification model of the memory engine in `bot/memory.py` of the
telegram-gemini-bot repository (class `UserMemory` and its module-level
helpers).

The SQLite database is modelled as explicit lists of rows; each repository
method becomes a pure function from a database value (plus the wall-clock
time `now`, which the Python code reads with `datetime.now`) to a new
database value and/or a result.  Numeric float fields are modelled over an
arbitrary linear ordered field `K`; theorems that depend on the semantics
of `math.sqrt` / `math.exp` instantiate `K := ℝ` with `Real.sqrt` and
`Real.exp`.  Timestamps (ISO-8601 UTC strings in the store, compared and
subtracted after parsing) are modelled as elements of `K` counting seconds,
which preserves both their ordering and their second-level arithmetic.
-/

namespace Bot

/-- A row of the `memory_facts` table. -/
structure Fact (K : Type) where
  id : Int
  scope : String
  user_id : Option Int
  chat_id : Option Int
  fact_text : String
  embedding : Option (List K)
  importance : K
  confidence : K
  is_active : Bool
  use_count : Int
  last_used_at : Option K
  created_at : K
  updated_at : K
deriving DecidableEq

/-- A row of the `user_profiles` table. -/
structure UserProfile (K : Type) where
  user_id : Int
  username : String
  first_name : String
  msg_count : Int
  profile : String
  profile_embedding : Option (List K)
  updated_at : Option K
deriving DecidableEq

/-- A row of the `scheduled_events` table. -/
structure ScheduledEvent (K : Type) where
  id : Int
  user_id : Option Int
  chat_id : Int
  event_type : String
  event_date : String
  title : String
  source_fact_id : Option Int
  last_triggered : Option K
  is_active : Bool
  created_at : K
  updated_at : K
deriving DecidableEq

/-- The dict returned by `get_events_for_date` (the selected columns). -/
structure EventDict (K : Type) where
  id : Int
  user_id : Option Int
  chat_id : Int
  event_type : String
  event_date : String
  title : String
  source_fact_id : Option Int
  last_triggered : Option K
deriving DecidableEq

/-- The whole SQLite store.  `next_fact_id` / `next_event_id` model the
AUTOINCREMENT id generators of `memory_facts` and `scheduled_events`. -/
structure MemoryDB (K : Type) where
  facts : List (Fact K)
  profiles : List (UserProfile K)
  memberships : List (Int × Int)
  events : List (ScheduledEvent K)
  next_fact_id : Int
  next_event_id : Int
deriving DecidableEq

/-- A Python value fed to `float(...)`: either a value it converts
(numbers, bools, numeric strings) or one that raises
`TypeError`/`ValueError` (e.g. `None`, `"abc"`). -/
inductive PyNum (K : Type) where
  | valid (x : K)
  | invalid
deriving DecidableEq

/-- A Python value fed to `int(...)`: either a value it converts or one
that raises `TypeError`/`ValueError`. -/
inductive PyTarget where
  | valid (i : Int)
  | invalid
deriving DecidableEq

/-- One candidate-fact dict passed to `_upsert_facts`.  `none` in an
`Option` field means the key is absent from the dict. -/
structure FactCandidate (K : Type) where
  fact : Option String := none
  fact_text : Option String := none
  importance : Option (PyNum K) := none
  confidence : Option (PyNum K) := none
  embedding : Option (List K) := none
  action : Option String := none
  target_fact_id : Option PyTarget := none
deriving DecidableEq

/-- One result dict of `search_facts_by_embedding`. -/
structure SearchEntry (K : Type) where
  fact_id : Int
  scope : String
  user_id : Option Int
  chat_id : Option Int
  owner_name : String
  fact_text : String
  semantic_score : K
  recency_score : K
  importance_score : K
  score : K
deriving DecidableEq

/-- One result dict of `find_similar_facts`. -/
structure SimilarEntry (K : Type) where
  fact_id : Int
  fact_text : String
  similarity : K
deriving DecidableEq

variable {K : Type} [LinearOrderedField K]

/-- SQL `COALESCE` on two nullable values. -/
def coalesce {α : Type} : Option α → Option α → Option α
  | some a, _ => some a
  | none, b => b

/-- `_clamp01` from `memory.py`: `float(value)` (returning `0.0` when the
conversion raises) clamped into `[0, 1]` via `max(0.0, min(1.0, parsed))`. -/
def _clamp01 : PyNum K → K
  | .valid x => max 0 (min 1 x)
  | .invalid => 0

/-- `sum(v * v for v in vec)`, the squared magnitude inside
`_cosine_similarity`. -/
def sumSq (l : List K) : K := (l.map fun v => v * v).sum

/-- `sum(a * b for a, b in zip(vec_a, vec_b))` from `_cosine_similarity`. -/
def dotList (a b : List K) : K := ((a.zip b).map fun p => p.1 * p.2).sum

/-- `_cosine_similarity` from `memory.py`, parametric in the `math.sqrt`
function: `None` when the lengths differ or either magnitude is zero,
otherwise `dot / (mag_a * mag_b)`. -/
def _cosine_similarity (sqrt : K → K) (vec_a vec_b : List K) : Option K :=
  if vec_a.length ≠ vec_b.length then none
  else
    let mag_a := sqrt (sumSq vec_a)
    let mag_b := sqrt (sumSq vec_b)
    if mag_a = 0 ∨ mag_b = 0 then none
    else some (dotList vec_a vec_b / (mag_a * mag_b))

/-- The whitespace test of Python's `str.strip`. -/
def isPySpace (c : Char) : Bool :=
  c == ' ' || c == '\t' || c == '\n' || c == '\r' || c == '\x0b' || c == '\x0c'

/-- Python `str.strip()` (ASCII whitespace model). -/
def py_strip (s : String) : String :=
  ⟨((s.data.dropWhile isPySpace).reverse.dropWhile isPySpace).reverse⟩

/-- ASCII lowering of one character, as `str.lower` acts on the ASCII
action strings used by `_upsert_facts`. -/
def asciiLowerChar (c : Char) : Char :=
  if 'A' ≤ c && c ≤ 'Z' then Char.ofNat (c.toNat + 32) else c

/-- Python `str.lower()` (ASCII model). -/
def py_lower (s : String) : String :=
  ⟨s.data.map asciiLowerChar⟩

/-- Python `a or b` on two optional strings (`None` and `""` are falsy),
as used in `item.get("fact") or item.get("fact_text") or ""`. -/
def pyOrStr : Option String → Option String → Option String
  | some s, b => if s = "" then b else some s
  | none, b => b

/-- `str(item.get("fact") or item.get("fact_text") or "").strip()`. -/
def candText (c : FactCandidate K) : String :=
  py_strip ((pyOrStr c.fact c.fact_text).getD "")

/-- `str(item.get("action", "keep_add_new")).strip().lower()`. -/
def candAction (c : FactCandidate K) : String :=
  py_lower (py_strip (c.action.getD "keep_add_new"))

/-- `json.dumps(embedding) if embedding else None`: an absent, `None` or
empty embedding is stored as SQL NULL. -/
def candEmb (c : FactCandidate K) : Option (List K) :=
  match c.embedding with
  | some l => if l.isEmpty then none else some l
  | none => none

/-- `int(target_fact_id)` guarded by `try/except`: `None` when the key is
absent or the conversion raises. -/
def candTarget (c : FactCandidate K) : Option Int :=
  match c.target_fact_id with
  | some (.valid i) => some i
  | _ => none

/-- The target-ownership lookup of `_upsert_facts`:
`SELECT id FROM memory_facts WHERE id = ? AND scope = ? AND
COALESCE(user_id, -1) = COALESCE(?, -1) AND
COALESCE(chat_id, -1) = COALESCE(?, -1)`. -/
def targetLookup (db : MemoryDB K) (scope : String) (user_id chat_id : Option Int)
    (tid : Int) : Option (Fact K) :=
  db.facts.find? fun f =>
    f.id == tid && f.scope == scope &&
      f.user_id.getD (-1) == user_id.getD (-1) &&
      f.chat_id.getD (-1) == chat_id.getD (-1)

/-- The exact-text duplicate lookup of `_upsert_facts`:
`SELECT id FROM memory_facts WHERE scope = ? AND COALESCE(user_id,-1) =
COALESCE(?,-1) AND COALESCE(chat_id,-1) = COALESCE(?,-1) AND fact_text = ?`. -/
def dupLookup (db : MemoryDB K) (scope : String) (user_id chat_id : Option Int)
    (text : String) : Option (Fact K) :=
  db.facts.find? fun f =>
    f.scope == scope &&
      f.user_id.getD (-1) == user_id.getD (-1) &&
      f.chat_id.getD (-1) == chat_id.getD (-1) &&
      f.fact_text == text

/-- The `keep_add_new` tail of `_upsert_facts` (lines 255-300): refresh the
exact-text duplicate in place when one exists, else INSERT a fresh active
row with `use_count = 0` and `last_used_at = NULL`. -/
def keepAddNew (db : MemoryDB K) (scope : String) (user_id chat_id : Option Int)
    (text : String) (emb_json : Option (List K)) (importance confidence : K)
    (now : K) : MemoryDB K :=
  match dupLookup db scope user_id chat_id text with
  | some f0 =>
      { db with
        facts := db.facts.map fun f =>
          if f.id == f0.id then
            { f with
              embedding := coalesce emb_json f.embedding
              importance := importance
              confidence := confidence
              is_active := true
              updated_at := now }
          else f }
  | none =>
      { db with
        facts := db.facts ++
          [{ id := db.next_fact_id
             scope := scope
             user_id := user_id
             chat_id := chat_id
             fact_text := text
             embedding := emb_json
             importance := importance
             confidence := confidence
             is_active := true
             use_count := 0
             last_used_at := none
             created_at := now
             updated_at := now }]
        next_fact_id := db.next_fact_id + 1 }

/-- Processing of one candidate dict inside the loop of `_upsert_facts`. -/
def upsertFactStep (scope : String) (user_id chat_id : Option Int) (now : K)
    (db : MemoryDB K) (c : FactCandidate K) : MemoryDB K :=
  let text := candText c
  if text = "" then db
  else
    let importance := _clamp01 (c.importance.getD (.valid (1/2)))
    let confidence := _clamp01 (c.confidence.getD (.valid (4/5)))
    let emb_json := candEmb c
    let action := candAction c
    let target := candTarget c
    if action = "noop" then db
    else
      match
        (if action = "update_existing" ∨ action = "deactivate_existing"
         then target else none) with
      | some tid =>
          match targetLookup db scope user_id chat_id tid with
          | some _ =>
              if action = "deactivate_existing" then
                { db with
                  facts := db.facts.map fun f =>
                    if f.id == tid then
                      { f with is_active := false, updated_at := now }
                    else f }
              else
                { db with
                  facts := db.facts.map fun f =>
                    if f.id == tid then
                      { f with
                        fact_text := text
                        embedding := coalesce emb_json f.embedding
                        importance := importance
                        confidence := confidence
                        is_active := true
                        updated_at := now }
                    else f }
          | none => keepAddNew db scope user_id chat_id text emb_json importance confidence now
      | none => keepAddNew db scope user_id chat_id text emb_json importance confidence now

/-- `_upsert_facts`: each candidate of the list is applied in order (an
empty list is a no-op, matching the early `return`). -/
def _upsert_facts (scope : String) (user_id chat_id : Option Int)
    (facts : List (FactCandidate K)) (now : K) (db : MemoryDB K) : MemoryDB K :=
  facts.foldl (upsertFactStep scope user_id chat_id now) db

/-- Stable insertion into a list sorted for the relation `le`
(`le b a` = "b may stay in front of a"). -/
def insertSorted {α : Type} (le : α → α → Bool) (a : α) : List α → List α
  | [] => [a]
  | b :: bs => if le b a then b :: insertSorted le a bs else a :: b :: bs

/-- Stable insertion sort, modelling Python's stable `list.sort`. -/
def sortRows {α : Type} (le : α → α → Bool) : List α → List α
  | [] => []
  | a :: as => insertSorted le a (sortRows le as)

/-- The comparison of `results.sort(key=lambda item: item["score"],
reverse=True)`: higher scores first. -/
def scoreDesc (a b : SearchEntry K) : Bool := decide (b.score ≤ a.score)

/-- The comparison of the `find_similar_facts` sort: higher similarity
first. -/
def simDesc (a b : SimilarEntry K) : Bool := decide (b.similarity ≤ a.similarity)

/-- Descending order on `updated_at` (`ORDER BY updated_at DESC`). -/
def updatedDesc (a b : Fact K) : Bool := decide (b.updated_at ≤ a.updated_at)

/-- `ORDER BY chat_id, event_type` on scheduled events. -/
def eventOrd (a b : ScheduledEvent K) : Bool :=
  a.chat_id < b.chat_id || (a.chat_id == b.chat_id && !(b.event_type < a.event_type))

/-- The WHERE clause of the `search_facts_by_embedding` query: active,
embedded, and visible from `(chat_id, asking_user_id)` — the fact is
chat-scoped and owned by this chat, or user-scoped and owned by the asking
user, or user-scoped and owned by some member of this chat. -/
def searchRowFilter (db : MemoryDB K) (chat_id asking_user_id : Int)
    (f : Fact K) : Bool :=
  f.is_active && f.embedding.isSome &&
    ((f.scope == "chat" && f.chat_id == some chat_id) ||
     (f.scope == "user" && f.user_id == some asking_user_id) ||
     (f.scope == "user" &&
       db.memberships.any fun m => m.2 == chat_id && f.user_id == some m.1))

/-- The cooldown test of `search_facts_by_embedding`: a row is skipped when
`last_used_at` is set and `(now - last_used).total_seconds() <
cooldown_seconds`. -/
def cooldownHit (now cooldown_seconds : K) (f : Fact K) : Bool :=
  match f.last_used_at with
  | some t => decide (now - t < cooldown_seconds)
  | none => false

/-- `LEFT JOIN user_profiles p ON p.user_id = f.user_id` followed by
`owner_name or "Unknown"`. -/
def ownerName (db : MemoryDB K) : Option Int → String
  | none => "Unknown"
  | some uid =>
      match db.profiles.find? fun p => p.user_id == uid with
      | some p => if p.first_name = "" then "Unknown" else p.first_name
      | none => "Unknown"

def FACT_RECENCY_DECAY_DAYS (K : Type) [LinearOrderedField K] : K := 14
def FACT_WEIGHT_SEMANTIC (K : Type) [LinearOrderedField K] : K := 60 / 100
def FACT_WEIGHT_RECENCY (K : Type) [LinearOrderedField K] : K := 25 / 100
def FACT_WEIGHT_IMPORTANCE (K : Type) [LinearOrderedField K] : K := 15 / 100

/-- The loop body of `search_facts_by_embedding` for one selected row:
`None` when the row is skipped (similarity undefined or below the floor,
or cooldown), otherwise the scored result dict. -/
def scoreRow (sqrt exp : K → K) (db : MemoryDB K)
    (query_embedding : List K) (min_semantic cooldown_seconds now : K)
    (f : Fact K) : Option (SearchEntry K) :=
  match f.embedding with
  | none => none
  | some emb =>
      match _cosine_similarity sqrt emb query_embedding with
      | none => none
      | some semantic =>
          if semantic < min_semantic then none
          else if cooldownHit now cooldown_seconds f then none
          else
            let age_days := max ((now - f.updated_at) / 86400) 0
            let recency := exp (-(age_days / FACT_RECENCY_DECAY_DAYS K))
            let importance_score := _clamp01 (.valid f.importance)
            some
              { fact_id := f.id
                scope := f.scope
                user_id := f.user_id
                chat_id := f.chat_id
                owner_name := ownerName db f.user_id
                fact_text := f.fact_text
                semantic_score := semantic
                recency_score := recency
                importance_score := importance_score
                score := FACT_WEIGHT_SEMANTIC K * semantic +
                  FACT_WEIGHT_RECENCY K * recency +
                  FACT_WEIGHT_IMPORTANCE K * importance_score }

/-- `search_facts_by_embedding`: select the visible rows, score the ones
that survive the similarity floor and the cooldown, sort by score
descending and truncate to `limit`. -/
def search_facts_by_embedding (sqrt exp : K → K) (db : MemoryDB K)
    (query_embedding : List K) (chat_id asking_user_id : Int) (limit : Nat)
    (min_semantic cooldown_seconds now : K) : List (SearchEntry K) :=
  if query_embedding.isEmpty then []
  else
    (sortRows scoreDesc
      ((db.facts.filter (searchRowFilter db chat_id asking_user_id)).filterMap
        (scoreRow sqrt exp db query_embedding min_semantic cooldown_seconds now))).take
      limit

/-- `find_similar_facts`: similarity search inside one exact scope/owner,
with the same shape of filtering, sorting and truncation. -/
def find_similar_facts (sqrt : K → K) (db : MemoryDB K) (scope : String)
    (query_embedding : List K) (user_id chat_id : Option Int) (limit : Nat)
    (min_semantic : K) : List (SimilarEntry K) :=
  if query_embedding.isEmpty || !(scope == "user" || scope == "chat") then []
  else if scope == "user" && user_id.isNone then []
  else if scope == "chat" && chat_id.isNone then []
  else
    let rows := db.facts.filter fun f =>
      f.is_active && f.embedding.isSome &&
        (if scope == "user" then f.scope == "user" && f.user_id == user_id
         else f.scope == "chat" && f.chat_id == chat_id)
    (sortRows simDesc
      (rows.filterMap fun f =>
        match f.embedding with
        | none => none
        | some emb =>
            match _cosine_similarity sqrt emb query_embedding with
            | none => none
            | some s =>
                if s < min_semantic then none
                else some { fact_id := f.id, fact_text := f.fact_text, similarity := s })).take
      limit

/-- The row-selection predicate of `get_user_facts` / `get_user_facts_page`. -/
def userFactRow (user_id : Int) (f : Fact K) : Bool :=
  f.scope == "user" && f.user_id == some user_id && f.is_active

/-- `get_user_facts`: texts of active user-scope facts, most recently
updated first, truncated to `limit`. -/
def get_user_facts (db : MemoryDB K) (user_id : Int) (limit : Nat) : List String :=
  ((sortRows updatedDesc (db.facts.filter (userFactRow user_id))).take limit).map
    (fun f => f.fact_text)

/-- `get_chat_facts`: texts of active chat-scope facts, most recently
updated first, truncated to `limit`. -/
def get_chat_facts (db : MemoryDB K) (chat_id : Int) (limit : Nat) : List String :=
  ((sortRows updatedDesc
      (db.facts.filter fun f =>
        f.scope == "chat" && f.chat_id == some chat_id && f.is_active)).take limit).map
    (fun f => f.fact_text)

/-- `mark_facts_used`: early-return on an empty id list, else increment
`use_count` and stamp `last_used_at = now` on every row whose id is in the
list. -/
def mark_facts_used (db : MemoryDB K) (fact_ids : List Int) (now : K) : MemoryDB K :=
  if fact_ids.isEmpty then db
  else
    { db with
      facts := db.facts.map fun f =>
        if fact_ids.contains f.id then
          { f with use_count := f.use_count + 1, last_used_at := some now }
        else f }

/-- The WHERE clause of `update_fact_text`:
`id = ? AND user_id = ? AND scope = 'user'`. -/
def editableRow (fact_id user_id : Int) (f : Fact K) : Bool :=
  f.id == fact_id && f.user_id == some user_id && f.scope == "user"

/-- `update_fact_text`: rewrite the text, NULL the embedding and stamp
`updated_at` on the owned user-scope row; the Bool is `rowcount > 0`. -/
def update_fact_text (db : MemoryDB K) (fact_id user_id : Int)
    (new_text : String) (now : K) : MemoryDB K × Bool :=
  ({ db with
     facts := db.facts.map fun f =>
       if editableRow fact_id user_id f then
         { f with fact_text := new_text, embedding := none, updated_at := now }
       else f },
   db.facts.any (editableRow fact_id user_id))

/-- `json.dumps(embedding) if embedding else None` in `update_profile`:
an absent, `None` or empty embedding is stored as SQL NULL. -/
def profileEmbJson (embedding : Option (List K)) : Option (List K) :=
  match embedding with
  | some l => if l.isEmpty then none else some l
  | none => none

/-- `update_profile`: an UPDATE of `profile`, `profile_embedding` and
`updated_at` keyed on `user_id`; when no row matches, only a warning is
logged and the store is left untouched. -/
def update_profile (db : MemoryDB K) (user_id : Int) (profile : String)
    (embedding : Option (List K)) (now : K) : MemoryDB K :=
  { db with
    profiles := db.profiles.map fun p =>
      if p.user_id == user_id then
        { p with
          profile := profile
          profile_embedding := profileEmbJson embedding
          updated_at := some now }
      else p }

/-- `increment_message_count`: upsert of the profile row (msg_count + 1 on
conflict, fresh row with `msg_count = 1` and the schema defaults
otherwise), `INSERT OR IGNORE` of the chat membership, and the returned
`msg_count`. -/
def increment_message_count (db : MemoryDB K) (user_id chat_id : Int)
    (username first_name : String) : MemoryDB K × Int :=
  let profiles :=
    if db.profiles.any fun p => p.user_id == user_id then
      db.profiles.map fun p =>
        if p.user_id == user_id then
          { p with msg_count := p.msg_count + 1, username := username, first_name := first_name }
        else p
    else
      db.profiles ++
        [{ user_id := user_id, username := username, first_name := first_name
           msg_count := 1, profile := "", profile_embedding := none, updated_at := none }]
  let memberships :=
    if db.memberships.contains (user_id, chat_id) then db.memberships
    else db.memberships ++ [(user_id, chat_id)]
  ({ db with profiles := profiles, memberships := memberships },
   (((profiles.find? fun p => p.user_id == user_id).map fun p => p.msg_count).getD 0))

/-- The active-row uniqueness-key lookup of `upsert_scheduled_event`:
`COALESCE(user_id,-1) = COALESCE(?,-1) AND chat_id = ? AND event_type = ?
AND title = ? AND is_active = 1`. -/
def eventLookup (db : MemoryDB K) (user_id : Option Int) (chat_id : Int)
    (event_type title : String) : Option (ScheduledEvent K) :=
  db.events.find? fun e =>
    e.user_id.getD (-1) == user_id.getD (-1) && e.chat_id == chat_id &&
      e.event_type == event_type && e.title == title && e.is_active

/-- `upsert_scheduled_event`: update `event_date`/`title`/`updated_at` (and
`source_fact_id` via COALESCE) of the active row with the same
(owner, chat, type, title) key, else insert a fresh active row with
`last_triggered = NULL`. -/
def upsert_scheduled_event (db : MemoryDB K) (user_id : Option Int)
    (chat_id : Int) (event_type event_date title : String)
    (source_fact_id : Option Int) (now : K) : MemoryDB K :=
  match eventLookup db user_id chat_id event_type title with
  | some e0 =>
      { db with
        events := db.events.map fun e =>
          if e.id == e0.id then
            { e with
              event_date := event_date
              title := title
              source_fact_id := coalesce source_fact_id e.source_fact_id
              updated_at := now }
          else e }
  | none =>
      { db with
        events := db.events ++
          [{ id := db.next_event_id
             user_id := user_id
             chat_id := chat_id
             event_type := event_type
             event_date := event_date
             title := title
             source_fact_id := source_fact_id
             last_triggered := none
             is_active := true
             created_at := now
             updated_at := now }]
        next_event_id := db.next_event_id + 1 }

/-- The date test of `get_events_for_date`:
`event_date = ? OR event_date LIKE '%-' || ?` (exact MM-DD match, or a
year-qualified date ending in `-MM-DD`). -/
def eventDateMatch (date_mmdd : String) (e : ScheduledEvent K) : Bool :=
  e.event_date == date_mmdd || ("-" ++ date_mmdd).data.isSuffixOf e.event_date.data

/-- `get_events_for_date`: active rows whose date matches, ordered by
`(chat_id, event_type)`, projected to the selected columns. -/
def get_events_for_date (db : MemoryDB K) (date_mmdd : String) : List (EventDict K) :=
  (sortRows eventOrd
      (db.events.filter fun e => e.is_active && eventDateMatch date_mmdd e)).map
    fun e =>
      { id := e.id, user_id := e.user_id, chat_id := e.chat_id
        event_type := e.event_type, event_date := e.event_date, title := e.title
        source_fact_id := e.source_fact_id, last_triggered := e.last_triggered }

/-- Modelled from the spec (§4.3 visibility rule), to be compared with the
SQL WHERE clause `searchRowFilter` from the source: eligible rows for
chat-scoped retrieval are chat-scope facts owned by `chatId`, user-scope
facts owned by `askingUserId`, and user-scope facts owned by any member of
`chatId` via ChatMembership. -/
def visibleSpec (db : MemoryDB K) (chat_id asking_user_id : Int) (f : Fact K) : Prop :=
  (f.scope = "chat" ∧ f.chat_id = some chat_id) ∨
  (f.scope = "user" ∧ f.user_id = some asking_user_id) ∨
  (f.scope = "user" ∧ ∃ u : Int, (u, chat_id) ∈ db.memberships ∧ f.user_id = some u)

/-! Generic lemmas about the stable sort -/

lemma mem_insertSorted {α : Type} (le : α → α → Bool) (a x : α) :
    ∀ l : List α, x ∈ insertSorted le a l ↔ x = a ∨ x ∈ l := by
  intro l
  induction l with
  | nil => simp [insertSorted]
  | cons b bs ih =>
      rw [insertSorted]
      by_cases h : le b a = true
      · rw [if_pos h]
        simp only [List.mem_cons, ih]
        tauto
      · rw [if_neg h]
        simp only [List.mem_cons]

lemma mem_sortRows {α : Type} (le : α → α → Bool) (x : α) :
    ∀ l : List α, x ∈ sortRows le l ↔ x ∈ l := by
  intro l
  induction l with
  | nil => simp [sortRows]
  | cons b bs ih => simp [sortRows, mem_insertSorted, ih]

lemma length_insertSorted {α : Type} (le : α → α → Bool) (a : α) :
    ∀ l : List α, (insertSorted le a l).length = l.length + 1 := by
  intro l
  induction l with
  | nil => simp [insertSorted]
  | cons b bs ih =>
      by_cases h : le b a = true <;> simp [insertSorted, h, ih]

lemma length_sortRows {α : Type} (le : α → α → Bool) :
    ∀ l : List α, (sortRows le l).length = l.length := by
  intro l
  induction l with
  | nil => rfl
  | cons b bs ih => simp [sortRows, length_insertSorted, ih]

lemma pairwise_insertSorted {α : Type} (le : α → α → Bool)
    (htot : ∀ a b : α, le a b = true ∨ le b a = true)
    (htrans : ∀ a b c : α, le a b = true → le b c = true → le a c = true)
    (a : α) :
    ∀ l : List α, l.Pairwise (fun x y => le x y = true) →
      (insertSorted le a l).Pairwise (fun x y => le x y = true) := by
  intro l
  induction l with
  | nil => simp [insertSorted]
  | cons b bs ih =>
      intro hp
      rw [List.pairwise_cons] at hp
      obtain ⟨hb, hbs⟩ := hp
      by_cases h : le b a = true
      · rw [insertSorted, if_pos h, List.pairwise_cons]
        refine ⟨?_, ih hbs⟩
        intro x hx
        rcases (mem_insertSorted le a x bs).1 hx with rfl | hx
        · exact h
        · exact hb x hx
      · rw [insertSorted, if_neg h, List.pairwise_cons]
        have hab : le a b = true := (htot a b).resolve_right (by simpa using h)
        refine ⟨?_, List.pairwise_cons.2 ⟨hb, hbs⟩⟩
        intro x hx
        rcases List.mem_cons.1 hx with rfl | hx
        · exact hab
        · exact htrans a b x hab (hb x hx)

lemma pairwise_sortRows {α : Type} (le : α → α → Bool)
    (htot : ∀ a b : α, le a b = true ∨ le b a = true)
    (htrans : ∀ a b c : α, le a b = true → le b c = true → le a c = true) :
    ∀ l : List α, (sortRows le l).Pairwise (fun x y => le x y = true) := by
  intro l
  induction l with
  | nil => simp [sortRows]
  | cons b bs ih => exact pairwise_insertSorted le htot htrans b _ ih

/-- An element strictly preferred to every other element of the list is
within any nonempty prefix of the sorted list. -/
lemma mem_take_sortRows_of_best {α : Type} (le : α → α → Bool)
    (htot : ∀ a b : α, le a b = true ∨ le b a = true)
    (htrans : ∀ a b c : α, le a b = true → le b c = true → le a c = true)
    (l : List α) (a : α) (ha : a ∈ l)
    (hbest : ∀ b ∈ l, b ≠ a → le b a = false) (n : Nat) (hn : 1 ≤ n) :
    a ∈ (sortRows le l).take n := by
  have hmem : a ∈ sortRows le l := (mem_sortRows le a l).2 ha
  have hp := pairwise_sortRows le htot htrans l
  cases hsort : sortRows le l with
  | nil => rw [hsort] at hmem; cases hmem
  | cons h t =>
      rw [hsort] at hmem hp
      rw [List.pairwise_cons] at hp
      have hha : h = a := by
        by_contra hne
        have hht : a ∈ t := by
          rcases List.mem_cons.1 hmem with rfl | hmem
          · exact absurd rfl hne
          · exact hmem
        have h1 : le h a = true := hp.1 a hht
        have hhl : h ∈ l := (mem_sortRows le h l).1 (hsort ▸ List.mem_cons_self h t)
        have h2 : le h a = false := hbest h hhl hne
        rw [h1] at h2
        cases h2
      subst hha
      cases n with
      | zero => omega
      | succ m => simp [List.take_succ_cons]

/-! Uniqueness of primary keys -/

/-- Two rows of a list with pairwise-distinct ids and the same id are the
same row. -/
lemma eq_of_mem_of_id_eq {α : Type} (idf : α → Int) {l : List α}
    (h : l.Pairwise fun a b => idf a ≠ idf b) {f g : α}
    (hf : f ∈ l) (hg : g ∈ l) (hid : idf f = idf g) : f = g := by
  induction l with
  | nil => cases hf
  | cons b bs ih =>
      rw [List.pairwise_cons] at h
      cases List.mem_cons.1 hf with
      | inl h1 =>
          cases List.mem_cons.1 hg with
          | inl h2 => rw [h1, h2]
          | inr h2 =>
              subst h1
              exact absurd hid (h.1 g h2)
      | inr h1 =>
          cases List.mem_cons.1 hg with
          | inl h2 =>
              subst h2
              exact absurd hid.symm (h.1 f h1)
          | inr h2 => exact ih h.2 h1 h2

/-! Sums of squares and the Cauchy-Schwarz bound -/

lemma sumSq_nil : sumSq ([] : List K) = 0 := rfl

lemma sumSq_cons (x : K) (xs : List K) : sumSq (x :: xs) = x * x + sumSq xs := by
  simp [sumSq]

lemma dotList_nil_right (a : List K) : dotList a [] = 0 := by
  cases a <;> rfl

lemma dotList_nil_left (b : List K) : dotList [] b = 0 := rfl

lemma dotList_cons (x y : K) (xs ys : List K) :
    dotList (x :: xs) (y :: ys) = x * y + dotList xs ys := by
  simp [dotList]

lemma sumSq_nonneg (l : List K) : 0 ≤ sumSq l := by
  induction l with
  | nil => simp [sumSq_nil]
  | cons x xs ih =>
      rw [sumSq_cons]
      nlinarith [mul_self_nonneg x]

lemma dotList_self (l : List K) : dotList l l = sumSq l := by
  induction l with
  | nil => rfl
  | cons x xs ih => rw [dotList_cons, sumSq_cons, ih]

lemma cross_nonneg (a b : K) :
    ∀ as bs : List K,
      0 ≤ a ^ 2 * sumSq bs - 2 * a * b * dotList as bs + b ^ 2 * sumSq as := by
  intro as
  induction as with
  | nil =>
      intro bs
      rw [dotList_nil_left, sumSq_nil]
      nlinarith [sumSq_nonneg (K := K) bs, sq_nonneg a]
  | cons x xs ih =>
      intro bs
      cases bs with
      | nil =>
          rw [dotList_nil_right, sumSq_nil]
          nlinarith [sumSq_nonneg (K := K) (x :: xs), sq_nonneg b]
      | cons y ys =>
          rw [dotList_cons, sumSq_cons, sumSq_cons]
          nlinarith [ih ys, sq_nonneg (a * y - b * x)]

/-! Inversion lemmas for the retrieval functions -/

lemma scoreRow_eq_some {sqrt exp : K → K} {db : MemoryDB K} {q : List K}
    {ms cd now : K} {f : Fact K} {e : SearchEntry K}
    (h : scoreRow sqrt exp db q ms cd now f = some e) :
    ∃ emb s, f.embedding = some emb ∧ _cosine_similarity sqrt emb q = some s ∧
      ¬(s < ms) ∧ cooldownHit now cd f = false ∧
      e = { fact_id := f.id
            scope := f.scope
            user_id := f.user_id
            chat_id := f.chat_id
            owner_name := ownerName db f.user_id
            fact_text := f.fact_text
            semantic_score := s
            recency_score := exp (-(max ((now - f.updated_at) / 86400) 0 /
              FACT_RECENCY_DECAY_DAYS K))
            importance_score := max 0 (min 1 f.importance)
            score := FACT_WEIGHT_SEMANTIC K * s +
              FACT_WEIGHT_RECENCY K * exp (-(max ((now - f.updated_at) / 86400) 0 /
                FACT_RECENCY_DECAY_DAYS K)) +
              FACT_WEIGHT_IMPORTANCE K * max 0 (min 1 f.importance) } := by
  unfold scoreRow at h
  cases hemb : f.embedding with
  | none =>
      simp only [hemb] at h
      exact Option.noConfusion h
  | some emb =>
      simp only [hemb] at h
      cases hcos : _cosine_similarity sqrt emb q with
      | none =>
          simp only [hcos] at h
          exact Option.noConfusion h
      | some s =>
          simp only [hcos] at h
          by_cases h1 : s < ms
          · rw [if_pos h1] at h; cases h
          · rw [if_neg h1] at h
            by_cases h2 : cooldownHit now cd f = true
            · rw [if_pos h2] at h; cases h
            · rw [if_neg h2] at h
              refine ⟨emb, s, rfl, hcos, h1, ?_, ?_⟩
              · simpa using h2
              · injection h with h
                exact h.symm

lemma mem_search_facts {sqrt exp : K → K} {db : MemoryDB K} {q : List K}
    {cid aid : Int} {lim : Nat} {ms cd now : K} {e : SearchEntry K}
    (h : e ∈ search_facts_by_embedding sqrt exp db q cid aid lim ms cd now) :
    ∃ f, f ∈ db.facts ∧ searchRowFilter db cid aid f = true ∧
      scoreRow sqrt exp db q ms cd now f = some e := by
  unfold search_facts_by_embedding at h
  by_cases hq : q.isEmpty
  · rw [if_pos hq] at h; cases h
  · rw [if_neg hq] at h
    have h2 := List.take_subset _ _ h
    rw [mem_sortRows] at h2
    obtain ⟨f, hf, hscore⟩ := List.mem_filterMap.1 h2
    obtain ⟨hmem, hfilter⟩ := List.mem_filter.1 hf
    exact ⟨f, hmem, hfilter, hscore⟩

/-- Every search result carries the id of its source row. -/
lemma search_result_id {sqrt exp : K → K} {db : MemoryDB K} {q : List K}
    {cid aid : Int} {lim : Nat} {ms cd now : K} {e : SearchEntry K}
    (h : e ∈ search_facts_by_embedding sqrt exp db q cid aid lim ms cd now) :
    ∃ f, f ∈ db.facts ∧ searchRowFilter db cid aid f = true ∧
      cooldownHit now cd f = false ∧ e.fact_id = f.id := by
  obtain ⟨f, hmem, hfilter, hscore⟩ := mem_search_facts h
  obtain ⟨emb, s, _, _, _, hcool, he⟩ := scoreRow_eq_some hscore
  exact ⟨f, hmem, hfilter, hcool, by rw [he]⟩

/-- A row that is inactive, has no embedding, or is inside the cooldown
window never surfaces in `search_facts_by_embedding` (given distinct ids). -/
lemma search_excludes {sqrt exp : K → K} {db : MemoryDB K} {q : List K}
    {cid aid : Int} {lim : Nat} {ms cd now : K} {f : Fact K}
    (hids : db.facts.Pairwise fun a b => a.id ≠ b.id)
    (hf : f ∈ db.facts)
    (hbad : f.is_active = false ∨ f.embedding = none ∨ cooldownHit now cd f = true) :
    ∀ e ∈ search_facts_by_embedding sqrt exp db q cid aid lim ms cd now,
      e.fact_id ≠ f.id := by
  intro e he hid
  obtain ⟨g, hg, hfilter, hcool, heid⟩ := search_result_id he
  have hgid : g.id = f.id := by rw [← heid]; exact hid
  have hgf : g = f := eq_of_mem_of_id_eq (fun x => x.id) hids hg hf hgid
  subst hgf
  unfold searchRowFilter at hfilter
  rcases hbad with hb | hb | hb
  · rw [hb] at hfilter; simp at hfilter
  · rw [hb] at hfilter; simp at hfilter
  · rw [hb] at hcool; cases hcool

lemma mem_find_similar {sqrt : K → K} {db : MemoryDB K} {scope : String}
    {q : List K} {user_id chat_id : Option Int} {lim : Nat} {ms : K}
    {r : SimilarEntry K}
    (h : r ∈ find_similar_facts sqrt db scope q user_id chat_id lim ms) :
    ∃ f, f ∈ db.facts ∧ f.is_active = true ∧ f.embedding ≠ none ∧
      r.fact_id = f.id := by
  unfold find_similar_facts at h
  by_cases h0 : q.isEmpty || !(scope == "user" || scope == "chat")
  · rw [if_pos h0] at h; cases h
  · rw [if_neg h0] at h
    by_cases h1 : scope == "user" && user_id.isNone
    · rw [if_pos h1] at h; cases h
    · rw [if_neg h1] at h
      by_cases h2 : scope == "chat" && chat_id.isNone
      · rw [if_pos h2] at h; cases h
      · rw [if_neg h2] at h
        have h3 := List.take_subset _ _ h
        rw [mem_sortRows] at h3
        obtain ⟨f, hf, hrow⟩ := List.mem_filterMap.1 h3
        obtain ⟨hmem, hfilter⟩ := List.mem_filter.1 hf
        refine ⟨f, hmem, ?_, ?_, ?_⟩
        · simp only [Bool.and_assoc, Bool.and_eq_true] at hfilter
          exact hfilter.1
        · cases hemb : f.embedding with
          | none =>
              simp only [hemb] at hrow
              exact Option.noConfusion hrow
          | some emb => simp
        · cases hemb : f.embedding with
          | none =>
              simp only [hemb] at hrow
              exact Option.noConfusion hrow
          | some emb =>
              simp only [hemb] at hrow
              cases hcos : _cosine_similarity sqrt emb q with
              | none =>
                  simp only [hcos] at hrow
                  exact Option.noConfusion hrow
              | some s =>
                  simp only [hcos] at hrow
                  by_cases hlt : s < ms
                  · rw [if_pos hlt] at hrow; cases hrow
                  · rw [if_neg hlt] at hrow
                    injection hrow with hrow
                    rw [← hrow]

/-- A row that is inactive or has no embedding never surfaces in
`find_similar_facts` (given distinct ids). -/
lemma find_similar_excludes {sqrt : K → K} {db : MemoryDB K} {scope : String}
    {q : List K} {user_id chat_id : Option Int} {lim : Nat} {ms : K} {f : Fact K}
    (hids : db.facts.Pairwise fun a b => a.id ≠ b.id)
    (hf : f ∈ db.facts)
    (hbad : f.is_active = false ∨ f.embedding = none) :
    ∀ r ∈ find_similar_facts sqrt db scope q user_id chat_id lim ms,
      r.fact_id ≠ f.id := by
  intro r hr hid
  obtain ⟨g, hg, hact, hemb, hrid⟩ := mem_find_similar hr
  have hgid : g.id = f.id := by rw [← hrid]; exact hid
  have hgf : g = f := eq_of_mem_of_id_eq (fun x => x.id) hids hg hf hgid
  subst hgf
  rcases hbad with hb | hb
  · rw [hb] at hact; cases hact
  · exact hemb hb

lemma dotList_sq_le (as bs : List K) :
    dotList as bs ^ 2 ≤ sumSq as * sumSq bs := by
  induction as generalizing bs with
  | nil =>
      rw [dotList_nil_left, sumSq_nil]
      nlinarith [sumSq_nonneg (K := K) bs]
  | cons x xs ih =>
      cases bs with
      | nil =>
          rw [dotList_nil_right, sumSq_nil]
          nlinarith [sumSq_nonneg (K := K) (x :: xs)]
      | cons y ys =>
          rw [dotList_cons, sumSq_cons, sumSq_cons]
          nlinarith [ih ys, cross_nonneg x y xs ys,
            sumSq_nonneg (K := K) xs, sumSq_nonneg (K := K) ys,
            sq_nonneg (x * y)]

/-- Reduction of `_cosine_similarity` with the `let`s expanded. -/
lemma cosine_eq (sqrt : K → K) (a b : List K) :
    _cosine_similarity sqrt a b =
      if a.length ≠ b.length then none
      else if sqrt (sumSq a) = 0 ∨ sqrt (sumSq b) = 0 then none
      else some (dotList a b / (sqrt (sumSq a) * sqrt (sumSq b))) := rfl

lemma search_sorted (sqrt exp : K → K) (db : MemoryDB K) (q : List K)
    (cid aid : Int) (lim : Nat) (ms cd now : K) :
    List.Pairwise (fun e1 e2 => e2.score ≤ e1.score)
      (search_facts_by_embedding sqrt exp db q cid aid lim ms cd now) := by
  unfold search_facts_by_embedding
  by_cases hq : q.isEmpty
  · rw [if_pos hq]; exact List.Pairwise.nil
  · rw [if_neg hq]
    have htot : ∀ a b : SearchEntry K, scoreDesc a b = true ∨ scoreDesc b a = true := by
      intro a b
      simp only [scoreDesc, decide_eq_true_eq]
      exact le_total b.score a.score
    have htrans : ∀ a b c : SearchEntry K,
        scoreDesc a b = true → scoreDesc b c = true → scoreDesc a c = true := by
      intro a b c
      simp only [scoreDesc, decide_eq_true_eq]
      intro h1 h2
      exact le_trans h2 h1
    have hp := pairwise_sortRows scoreDesc htot htrans
      ((db.facts.filter (searchRowFilter db cid aid)).filterMap
        (scoreRow sqrt exp db q ms cd now))
    have hsub := hp.sublist (List.take_sublist lim _)
    exact hsub.imp fun h => by simpa [scoreDesc, decide_eq_true_eq] using h

lemma search_length_le (sqrt exp : K → K) (db : MemoryDB K) (q : List K)
    (cid aid : Int) (lim : Nat) (ms cd now : K) :
    (search_facts_by_embedding sqrt exp db q cid aid lim ms cd now).length ≤ lim := by
  unfold search_facts_by_embedding
  by_cases hq : q.isEmpty
  · rw [if_pos hq]; exact Nat.zero_le lim
  · rw [if_neg hq]
    rw [List.length_take]
    exact min_le_left _ _

/-- Claim C3: `_cosine_similarity` returns `None` (never raising) exactly
when the lengths differ or either vector has zero magnitude; otherwise the
value `dot(a,b)/(|a||b|)` lies in `[-1, 1]`; a vector compared with itself
yields exactly `1`, and orthogonal vectors yield `0`. -/
theorem cosine_similarity_contract (a b : List ℝ) :
    (_cosine_similarity Real.sqrt a b = none ↔
      a.length ≠ b.length ∨ sumSq a = 0 ∨ sumSq b = 0) ∧
    (∀ c : ℝ, _cosine_similarity Real.sqrt a b = some c → -1 ≤ c ∧ c ≤ 1) ∧
    (sumSq a ≠ 0 → _cosine_similarity Real.sqrt a a = some 1) ∧
    (dotList a b = 0 → ∀ c : ℝ, _cosine_similarity Real.sqrt a b = some c → c = 0) := by
  have hSA := sumSq_nonneg (K := ℝ) a
  have hSB := sumSq_nonneg (K := ℝ) b
  refine ⟨?_, ?_, ?_, ?_⟩
  · rw [cosine_eq]
    split_ifs with h1 h2
    · exact iff_of_true rfl (Or.inl h1)
    · refine iff_of_true rfl (Or.inr ?_)
      rcases h2 with h2 | h2
      · exact Or.inl ((Real.sqrt_eq_zero hSA).1 h2)
      · exact Or.inr ((Real.sqrt_eq_zero hSB).1 h2)
    · refine iff_of_false (by simp) ?_
      push_neg at h2 ⊢
      refine ⟨not_not.1 h1, ?_, ?_⟩
      · intro hz
        exact h2.1 (by rw [hz, Real.sqrt_zero])
      · intro hz
        exact h2.2 (by rw [hz, Real.sqrt_zero])
  · intro c hc
    rw [cosine_eq] at hc
    split_ifs at hc with h1 h2
    push_neg at h2
    injection hc with hc
    subst hc
    have hsa : 0 < Real.sqrt (sumSq a) :=
      lt_of_le_of_ne (Real.sqrt_nonneg _) (Ne.symm h2.1)
    have hsb : 0 < Real.sqrt (sumSq b) :=
      lt_of_le_of_ne (Real.sqrt_nonneg _) (Ne.symm h2.2)
    have hd : 0 < Real.sqrt (sumSq a) * Real.sqrt (sumSq b) := mul_pos hsa hsb
    have hsq : (Real.sqrt (sumSq a) * Real.sqrt (sumSq b)) ^ 2 = sumSq a * sumSq b := by
      rw [mul_pow, Real.sq_sqrt hSA, Real.sq_sqrt hSB]
    have hdot : dotList a b ^ 2 ≤ (Real.sqrt (sumSq a) * Real.sqrt (sumSq b)) ^ 2 := by
      rw [hsq]
      exact dotList_sq_le a b
    have habs : |dotList a b| ≤ Real.sqrt (sumSq a) * Real.sqrt (sumSq b) := by
      nlinarith [sq_abs (dotList a b), abs_nonneg (dotList a b)]
    have hle := abs_le.1 habs
    constructor
    · rw [le_div_iff₀ hd]
      linarith [hle.1]
    · rw [div_le_one hd]
      exact hle.2
  · intro hne
    have h0 : 0 < Real.sqrt (sumSq a) :=
      Real.sqrt_pos.2 (lt_of_le_of_ne hSA (Ne.symm hne))
    rw [cosine_eq]
    rw [if_neg (show ¬ a.length ≠ a.length by simp)]
    rw [if_neg (show ¬ (Real.sqrt (sumSq a) = 0 ∨ Real.sqrt (sumSq a) = 0) by
      push_neg
      exact ⟨ne_of_gt h0, ne_of_gt h0⟩)]
    rw [dotList_self]
    congr 1
    rw [Real.mul_self_sqrt hSA]
    exact div_self hne
  · intro hdot c hc
    rw [cosine_eq] at hc
    split_ifs at hc
    injection hc with hc
    rw [hdot, zero_div] at hc
    exact hc.symm

/-- Nonvacuity for C3: orthogonal, identical and length-mismatched concrete
vectors, settled by applying `cosine_similarity_contract`. -/
theorem cosine_similarity_contract_witness :
    _cosine_similarity Real.sqrt [(1:ℝ), 0] [(0:ℝ), 1] = some 0 ∧
    _cosine_similarity Real.sqrt [(1:ℝ), 0] [(1:ℝ), 0] = some 1 ∧
    _cosine_similarity Real.sqrt [(1:ℝ)] [(1:ℝ), 0] = none := by
  have hs1 : sumSq [(1:ℝ), 0] = 1 := by
    rw [sumSq_cons, sumSq_cons, sumSq_nil]
    norm_num
  have hdot : dotList [(1:ℝ), 0] [(0:ℝ), 1] = 0 := by
    rw [dotList_cons, dotList_cons, dotList_nil_left]
    norm_num
  refine ⟨?_, ?_, ?_⟩
  · have hc := cosine_similarity_contract [(1:ℝ), 0] [(0:ℝ), 1]
    have hnone : ¬(_cosine_similarity Real.sqrt [(1:ℝ), 0] [(0:ℝ), 1] = none) := by
      rw [hc.1]
      push_neg
      refine ⟨by simp, by rw [hs1]; norm_num, ?_⟩
      rw [sumSq_cons, sumSq_cons, sumSq_nil]
      norm_num
    obtain ⟨c, hcEq⟩ := Option.ne_none_iff_exists'.1 hnone
    have hzero := hc.2.2.2 hdot c hcEq
    rw [hcEq, hzero]
  · exact (cosine_similarity_contract [(1:ℝ), 0] [(1:ℝ), 0]).2.2.1
      (by rw [hs1]; norm_num)
  · rw [(cosine_similarity_contract [(1:ℝ)] [(1:ℝ), 0]).1]
    exact Or.inl (by simp)

/-- Claim C1: every result of `search_facts_by_embedding` is scored as
`0.60 * semantic + 0.25 * recency + 0.15 * importance`, where `semantic` is
the cosine similarity of the stored and query embeddings, `recency` is
`exp(-ageDays / 14)` with `ageDays = max((now - updated_at) in days, 0)`,
and `importance` is the stored importance clamped into `[0, 1]`; the list
is ordered by score descending and truncated to `limit`. -/
theorem search_scoring_formula (db : MemoryDB ℝ) (q : List ℝ) (cid aid : Int)
    (lim : Nat) (ms cd now : ℝ) :
    (∀ e ∈ search_facts_by_embedding Real.sqrt Real.exp db q cid aid lim ms cd now,
      ∃ f, f ∈ db.facts ∧ f.id = e.fact_id ∧ f.fact_text = e.fact_text ∧
        (∃ emb, f.embedding = some emb ∧
          _cosine_similarity Real.sqrt emb q = some e.semantic_score) ∧
        e.recency_score =
          Real.exp (-(max ((now - f.updated_at) / 86400) 0 / 14)) ∧
        e.importance_score = max 0 (min 1 f.importance) ∧
        e.score = 0.60 * e.semantic_score + 0.25 * e.recency_score +
          0.15 * e.importance_score) ∧
    List.Pairwise (fun e1 e2 => e2.score ≤ e1.score)
      (search_facts_by_embedding Real.sqrt Real.exp db q cid aid lim ms cd now) ∧
    (search_facts_by_embedding Real.sqrt Real.exp db q cid aid lim ms cd now).length
      ≤ lim := by
  refine ⟨?_, search_sorted _ _ _ _ _ _ _ _ _ _, search_length_le _ _ _ _ _ _ _ _ _ _⟩
  intro e he
  obtain ⟨f, hmem, hfilter, hscore⟩ := mem_search_facts he
  obtain ⟨emb, s, hemb, hcos, hlt, hcool, hrec⟩ := scoreRow_eq_some hscore
  subst hrec
  refine ⟨f, hmem, rfl, rfl, ⟨emb, hemb, hcos⟩, ?_, rfl, ?_⟩
  · show Real.exp (-(max ((now - f.updated_at) / 86400) 0 / FACT_RECENCY_DECAY_DAYS ℝ)) =
      Real.exp (-(max ((now - f.updated_at) / 86400) 0 / 14))
    norm_num [FACT_RECENCY_DECAY_DAYS]
  · show FACT_WEIGHT_SEMANTIC ℝ * s +
      FACT_WEIGHT_RECENCY ℝ * Real.exp (-(max ((now - f.updated_at) / 86400) 0 /
        FACT_RECENCY_DECAY_DAYS ℝ)) +
      FACT_WEIGHT_IMPORTANCE ℝ * max 0 (min 1 f.importance) = _
    norm_num [FACT_WEIGHT_SEMANTIC, FACT_WEIGHT_RECENCY, FACT_WEIGHT_IMPORTANCE]

/-- The one-fact store used for the C1 nonvacuity check. -/
def c1fact : Fact ℝ :=
  { id := 1, scope := "user", user_id := some 5, chat_id := some 100
    fact_text := "t", embedding := some [1], importance := 2, confidence := 1
    is_active := true, use_count := 0, last_used_at := none
    created_at := 0, updated_at := 0 }

def c1db : MemoryDB ℝ :=
  { facts := [c1fact], profiles := [], memberships := [], events := []
    next_fact_id := 2, next_event_id := 1 }

/-- Nonvacuity for C1: on a concrete store the search returns an entry and
`search_scoring_formula` yields its weighted-score equation. -/
theorem search_scoring_formula_witness :
    ∃ e, e ∈ search_facts_by_embedding Real.sqrt Real.exp c1db [(1:ℝ)] 100 5 3 0 900 0 ∧
      e.score = 0.60 * e.semantic_score + 0.25 * e.recency_score +
        0.15 * e.importance_score := by
  have hcos : _cosine_similarity Real.sqrt [(1:ℝ)] [(1:ℝ)] = some 1 := by
    rw [cosine_eq]
    rw [if_neg (show ¬ ([(1:ℝ)].length ≠ [(1:ℝ)].length) by simp)]
    have hs : sumSq [(1:ℝ)] = 1 := by
      rw [sumSq_cons, sumSq_nil]
      norm_num
    rw [hs, Real.sqrt_one]
    rw [if_neg (by norm_num)]
    rw [dotList_cons, dotList_nil_left]
    norm_num
  have hrow : scoreRow Real.sqrt Real.exp c1db [(1:ℝ)] 0 900 0 c1fact =
      some { fact_id := 1, scope := "user", user_id := some 5, chat_id := some 100
             owner_name := "Unknown", fact_text := "t", semantic_score := 1
             recency_score := 1, importance_score := 1, score := 1 } := by
    unfold scoreRow
    simp only [show c1fact.embedding = some [(1:ℝ)] from rfl]
    simp only [hcos]
    rw [if_neg (by norm_num)]
    rw [if_neg (by rw [show cooldownHit (0:ℝ) 900 c1fact = false from rfl]; simp)]
    have hmax : max ((0 - c1fact.updated_at) / 86400) 0 = (0:ℝ) := by
      rw [show c1fact.updated_at = (0:ℝ) from rfl]
      norm_num
    simp only [hmax]
    rw [show ownerName c1db c1fact.user_id = "Unknown" from rfl]
    have hexp : Real.exp (-((0:ℝ) / FACT_RECENCY_DECAY_DAYS ℝ)) = 1 := by
      norm_num [FACT_RECENCY_DECAY_DAYS, Real.exp_zero]
    rw [hexp]
    have himp : _clamp01 (PyNum.valid c1fact.importance) = (1:ℝ) := by
      rw [show c1fact.importance = (2:ℝ) from rfl]
      unfold _clamp01
      norm_num
    rw [himp]
    have hw : FACT_WEIGHT_SEMANTIC ℝ * 1 + FACT_WEIGHT_RECENCY ℝ * 1 +
        FACT_WEIGHT_IMPORTANCE ℝ * 1 = 1 := by
      norm_num [FACT_WEIGHT_SEMANTIC, FACT_WEIGHT_RECENCY, FACT_WEIGHT_IMPORTANCE]
    rw [show c1fact.id = (1:Int) from rfl, show c1fact.scope = "user" from rfl,
      show c1fact.user_id = some (5:Int) from rfl,
      show c1fact.chat_id = some (100:Int) from rfl,
      show c1fact.fact_text = "t" from rfl, hw]
  have hsearch : search_facts_by_embedding Real.sqrt Real.exp c1db [(1:ℝ)] 100 5 3 0 900 0 =
      [{ fact_id := 1, scope := "user", user_id := some 5, chat_id := some 100
         owner_name := "Unknown", fact_text := "t", semantic_score := 1
         recency_score := 1, importance_score := 1, score := 1 }] := by
    unfold search_facts_by_embedding
    rw [if_neg (show ¬ ([(1:ℝ)].isEmpty = true) by simp)]
    rw [show List.filter (searchRowFilter c1db 100 5) c1db.facts = [c1fact] from rfl]
    rw [List.filterMap_cons, hrow]
    rw [show List.filterMap (scoreRow Real.sqrt Real.exp c1db [(1:ℝ)] 0 900 0) [] = [] from rfl]
    rfl
  refine ⟨_, by rw [hsearch]; exact List.mem_singleton.2 rfl, ?_⟩
  obtain ⟨f, _, _, _, _, _, _, hsc⟩ :=
    (search_scoring_formula c1db [(1:ℝ)] 100 5 3 0 900 0).1 _
      (by rw [hsearch]; exact List.mem_singleton.2 rfl)
  exact hsc

/-- Claim C5: the rows considered by chat-scoped retrieval are exactly the
active embedded rows satisfying the spec's visibility rule (chat-scope
facts of this chat, user-scope facts of the asking user, user-scope facts
of any chat member), and every returned entry stems from such a row. -/
theorem search_visibility (sqrt exp : K → K) (db : MemoryDB K) (q : List K)
    (cid aid : Int) (lim : Nat) (ms cd now : K) :
    (∀ f : Fact K, searchRowFilter db cid aid f = true ↔
      (f.is_active = true ∧ f.embedding ≠ none ∧ visibleSpec db cid aid f)) ∧
    (∀ e ∈ search_facts_by_embedding sqrt exp db q cid aid lim ms cd now,
      ∃ f, f ∈ db.facts ∧ f.id = e.fact_id ∧ f.is_active = true ∧
        visibleSpec db cid aid f) := by
  have hchar : ∀ f : Fact K, searchRowFilter db cid aid f = true ↔
      (f.is_active = true ∧ f.embedding ≠ none ∧ visibleSpec db cid aid f) := by
    intro f
    have hmemb : (db.memberships.any fun m => m.2 == cid && f.user_id == some m.1) = true ↔
        ∃ u : Int, (u, cid) ∈ db.memberships ∧ f.user_id = some u := by
      rw [List.any_eq_true]
      constructor
      · rintro ⟨m, hm, hpred⟩
        rw [Bool.and_eq_true, beq_iff_eq, beq_iff_eq] at hpred
        refine ⟨m.1, ?_, hpred.2⟩
        have hm2 : m = (m.1, cid) := by rw [← hpred.1]
        rw [← hm2]
        exact hm
      · rintro ⟨u, hu, hfu⟩
        refine ⟨(u, cid), hu, ?_⟩
        rw [Bool.and_eq_true, beq_iff_eq, beq_iff_eq]
        exact ⟨rfl, hfu⟩
    unfold searchRowFilter visibleSpec
    simp only [Bool.and_eq_true, Bool.or_eq_true, beq_iff_eq]
    constructor
    · rintro ⟨⟨hact, hemb⟩, hvis⟩
      refine ⟨hact, ?_, ?_⟩
      · intro h
        rw [h] at hemb
        simp at hemb
      · rcases hvis with (⟨h1, h2⟩ | ⟨h1, h2⟩) | ⟨h1, h2⟩
        · exact Or.inl ⟨h1, h2⟩
        · exact Or.inr (Or.inl ⟨h1, h2⟩)
        · exact Or.inr (Or.inr ⟨h1, hmemb.1 h2⟩)
    · rintro ⟨hact, hemb, hvis⟩
      refine ⟨⟨hact, Option.ne_none_iff_isSome.1 hemb⟩, ?_⟩
      rcases hvis with ⟨h1, h2⟩ | ⟨h1, h2⟩ | ⟨h1, h2⟩
      · exact Or.inl (Or.inl ⟨h1, h2⟩)
      · exact Or.inl (Or.inr ⟨h1, h2⟩)
      · exact Or.inr ⟨h1, hmemb.2 h2⟩
  refine ⟨hchar, ?_⟩
  intro e he
  obtain ⟨f, hf, hfilter, _, heid⟩ := search_result_id he
  have h := (hchar f).1 hfilter
  exact ⟨f, hf, heid.symm, h.1, h.2.2⟩

/-- The member-owned user-scope fact used for the C5 nonvacuity check:
user 9 is a member of chat 100; user 7 asks. -/
def c5fact : Fact ℚ :=
  { id := 3, scope := "user", user_id := some 9, chat_id := some 100
    fact_text := "m", embedding := some [1], importance := 1, confidence := 1
    is_active := true, use_count := 0, last_used_at := none
    created_at := 0, updated_at := 0 }

def c5db : MemoryDB ℚ :=
  { facts := [c5fact], profiles := [], memberships := [(9, 100)], events := []
    next_fact_id := 4, next_event_id := 1 }

/-- Nonvacuity for C5: the concrete membership-visible row passes the SQL
filter, and `search_visibility` turns that into the spec's visibility
disjunction. -/
theorem search_visibility_witness :
    searchRowFilter c5db 100 7 c5fact = true ∧ visibleSpec c5db 100 7 c5fact := by
  have hb : searchRowFilter c5db 100 7 c5fact = true := by decide
  have h := (search_visibility (fun x => x) (fun x => x) c5db [1] 100 7 3 0 900 0).1 c5fact
  exact ⟨hb, ((h.1 hb).2.2)⟩

/-- Claim C6: a row used within `cooldown_seconds` of now is excluded from
the search results entirely; a never-used row and a row used longer ago
than the cooldown are not excluded by the cooldown rule; `mark_facts_used`
stamps `last_used_at = now` and bumps `use_count` on exactly the listed
ids and is a no-op on an empty list. -/
theorem cooldown_and_mark_used (sqrt exp : K → K) (db : MemoryDB K) (q : List K)
    (cid aid : Int) (lim : Nat) (ms cd now : K) (f : Fact K) (t : K)
    (ids : List Int) :
    (db.facts.Pairwise (fun a b => a.id ≠ b.id) → f ∈ db.facts →
      f.last_used_at = some t → now - t < cd →
      ∀ e ∈ search_facts_by_embedding sqrt exp db q cid aid lim ms cd now,
        e.fact_id ≠ f.id) ∧
    (f.last_used_at = none → cooldownHit now cd f = false) ∧
    (f.last_used_at = some t → cd ≤ now - t → cooldownHit now cd f = false) ∧
    (mark_facts_used db [] now = db) ∧
    (f ∈ db.facts → f.id ∈ ids →
      { f with use_count := f.use_count + 1, last_used_at := some now } ∈
        (mark_facts_used db ids now).facts) ∧
    (f ∈ db.facts → f.id ∉ ids → f ∈ (mark_facts_used db ids now).facts) := by
  refine ⟨?_, ?_, ?_, rfl, ?_, ?_⟩
  · intro hids hf ht hcd
    have hhit : cooldownHit now cd f = true := by
      unfold cooldownHit
      rw [ht]
      exact decide_eq_true hcd
    exact search_excludes hids hf (Or.inr (Or.inr hhit))
  · intro h
    unfold cooldownHit
    rw [h]
  · intro ht hle
    unfold cooldownHit
    rw [ht]
    exact decide_eq_false (not_lt.2 hle)
  · intro hf hin
    have hne : ids.isEmpty = false := by
      cases ids with
      | nil => cases hin
      | cons a as => rfl
    have hcont : ids.contains f.id = true := List.elem_eq_true_of_mem hin
    unfold mark_facts_used
    rw [if_neg (show ¬ ids.isEmpty = true by rw [hne]; simp)]
    refine List.mem_map.2 ⟨f, hf, ?_⟩
    simp [hcont, hin]
  · intro hf hnotin
    have hcont : ids.contains f.id = false := by
      rw [Bool.eq_false_iff]
      exact fun h => hnotin (List.mem_of_elem_eq_true h)
    by_cases hne : ids.isEmpty = true
    · unfold mark_facts_used
      rw [if_pos hne]
      exact hf
    · unfold mark_facts_used
      rw [if_neg hne]
      refine List.mem_map.2 ⟨f, hf, ?_⟩
      simp [hcont, hnotin]

/-- A row freshly marked used (`last_used_at = 0`), for the C6 check. -/
def c6fact : Fact ℚ :=
  { id := 1, scope := "user", user_id := some 7, chat_id := some 100
    fact_text := "u", embedding := some [1], importance := 1, confidence := 1
    is_active := true, use_count := 0, last_used_at := some 0
    created_at := 0, updated_at := 0 }

def c6db : MemoryDB ℚ :=
  { facts := [c6fact], profiles := [], memberships := [], events := []
    next_fact_id := 2, next_event_id := 1 }

/-- Nonvacuity for C6: at time 0 with a 900-second cooldown the just-used
row is excluded from any search result; marking is a no-op on `[]` and
bumps the row for `[1]`. -/
theorem cooldown_and_mark_used_witness :
    (∀ e ∈ search_facts_by_embedding (fun x => x) (fun x => x) c6db [(1:ℚ)]
        100 7 3 0 900 0, e.fact_id ≠ c6fact.id) ∧
    mark_facts_used c6db [] 0 = c6db ∧
    { c6fact with use_count := c6fact.use_count + 1, last_used_at := some (0:ℚ) } ∈
      (mark_facts_used c6db [1] 0).facts := by
  have h := cooldown_and_mark_used (fun x => x) (fun x => x) c6db [(1:ℚ)]
    100 7 3 0 900 0 c6fact 0 [1]
  refine ⟨h.1 (by simp [c6db]) (List.mem_singleton.2 rfl) rfl (by norm_num),
    h.2.2.2.1, ?_⟩
  exact h.2.2.2.2.1 (List.mem_singleton.2 rfl) (by simp [c6fact])

lemma clamp01_bounds (v : PyNum K) : 0 ≤ _clamp01 v ∧ _clamp01 v ≤ 1 := by
  cases v with
  | invalid =>
      unfold _clamp01
      norm_num
  | valid x =>
      unfold _clamp01
      exact ⟨le_max_left 0 _, max_le zero_le_one (min_le_left 1 x)⟩

/-- Claim C2: when a candidate with action `update_existing` or
`deactivate_existing` carries a missing, non-integer, or non-matching
`target_fact_id` (no row with that id under the same scope and owner), the
resolver falls back to `keep_add_new` semantics and leaves every fact of a
different owner untouched; being a total function it never raises. -/
theorem resolver_invalid_target_falls_back (db : MemoryDB K) (scope : String)
    (user_id chat_id : Option Int) (c : FactCandidate K) (now : K)
    (hids : db.facts.Pairwise fun a b => a.id ≠ b.id)
    (htext : candText c ≠ "")
    (hact : candAction c = "update_existing" ∨ candAction c = "deactivate_existing")
    (htarget : ∀ tid, candTarget c = some tid →
      targetLookup db scope user_id chat_id tid = none) :
    upsertFactStep scope user_id chat_id now db c =
      keepAddNew db scope user_id chat_id (candText c) (candEmb c)
        (_clamp01 (c.importance.getD (.valid (1/2))))
        (_clamp01 (c.confidence.getD (.valid (4/5)))) now ∧
    ∀ f ∈ db.facts,
      ¬(f.scope = scope ∧ f.user_id.getD (-1) = user_id.getD (-1) ∧
        f.chat_id.getD (-1) = chat_id.getD (-1)) →
      f ∈ (upsertFactStep scope user_id chat_id now db c).facts := by
  have heq : upsertFactStep scope user_id chat_id now db c =
      keepAddNew db scope user_id chat_id (candText c) (candEmb c)
        (_clamp01 (c.importance.getD (.valid (1/2))))
        (_clamp01 (c.confidence.getD (.valid (4/5)))) now := by
    simp only [upsertFactStep]
    rw [if_neg htext]
    have hnoop : ¬ candAction c = "noop" := by
      rcases hact with h | h <;> rw [h] <;> decide
    rw [if_neg hnoop, if_pos hact]
    cases hT : candTarget c with
    | none => rfl
    | some tid => simp only [htarget tid hT]
  refine ⟨heq, ?_⟩
  intro f hf hown
  rw [heq]
  unfold keepAddNew
  cases hdup : dupLookup db scope user_id chat_id (candText c) with
  | none => exact List.mem_append_left _ hf
  | some f0 =>
      have hf0mem : f0 ∈ db.facts := List.mem_of_find?_eq_some hdup
      have hpred := List.find?_some hdup
      simp only [Bool.and_eq_true, beq_iff_eq] at hpred
      have hneid : (f.id == f0.id) = false := by
        rw [beq_eq_false_iff_ne]
        intro hEq
        have hff0 : f = f0 := eq_of_mem_of_id_eq (fun x => x.id) hids hf hf0mem hEq
        exact hown (by rw [hff0]; exact ⟨hpred.1.1.1, hpred.1.1.2, hpred.1.2⟩)
      refine List.mem_map.2 ⟨f, hf, ?_⟩
      simp [hneid]

/-- A fact owned by user 2, targeted by user 1's candidate in the C2
nonvacuity check. -/
def c2fact : Fact ℚ :=
  { id := 1, scope := "user", user_id := some 2, chat_id := some 100
    fact_text := "Bob likes tea", embedding := none, importance := 1
    confidence := 1, is_active := true, use_count := 0, last_used_at := none
    created_at := 0, updated_at := 0 }

def c2db : MemoryDB ℚ :=
  { facts := [c2fact], profiles := [], memberships := [], events := []
    next_fact_id := 2, next_event_id := 1 }

/-- User 1's candidate trying to deactivate user 2's fact id 1. -/
def c2cand : FactCandidate ℚ :=
  { fact := some "Alice likes tea", action := some "deactivate_existing"
    target_fact_id := some (.valid 1) }

/-- Nonvacuity for C2: the cross-owner deactivation attempt falls back to
`keep_add_new` and the other owner's fact survives untouched. -/
theorem resolver_invalid_target_falls_back_witness :
    upsertFactStep "user" (some 1) (some 100) 0 c2db c2cand =
      keepAddNew c2db "user" (some 1) (some 100) (candText c2cand) (candEmb c2cand)
        (_clamp01 (c2cand.importance.getD (.valid (1/2))))
        (_clamp01 (c2cand.confidence.getD (.valid (4/5)))) 0 ∧
    c2fact ∈ (upsertFactStep "user" (some 1) (some 100) 0 c2db c2cand).facts := by
  have h := resolver_invalid_target_falls_back c2db "user" (some 1) (some 100)
    c2cand 0 (by simp [c2db]) (by decide) (Or.inr (by decide)) ?_
  · exact ⟨h.1, h.2 c2fact (List.mem_singleton.2 rfl) (by decide)⟩
  · intro tid hT
    have h1 : some (1 : Int) = some tid := hT
    cases h1
    decide

/-- Claim C4: a nonempty `keep_add_new` candidate refreshes the
byte-identical duplicate of the same scope/owner in place (embedding via
COALESCE, importance, confidence, reactivation, `updated_at`) without
adding a row, and otherwise inserts exactly one new active row with
`use_count = 0`, `last_used_at` NULL and importance/confidence clamped to
`[0, 1]` (`0` for invalid numeric input); the resolver never raises. -/
theorem keep_add_new_semantics (db : MemoryDB K) (scope : String)
    (user_id chat_id : Option Int) (c : FactCandidate K) (now : K)
    (htext : candText c ≠ "")
    (hact : candAction c = "keep_add_new") :
    (∀ f0, dupLookup db scope user_id chat_id (candText c) = some f0 →
      (upsertFactStep scope user_id chat_id now db c).facts.length = db.facts.length ∧
      { f0 with
        embedding := coalesce (candEmb c) f0.embedding
        importance := _clamp01 (c.importance.getD (.valid (1/2)))
        confidence := _clamp01 (c.confidence.getD (.valid (4/5)))
        is_active := true, updated_at := now } ∈
          (upsertFactStep scope user_id chat_id now db c).facts ∧
      (∀ g ∈ db.facts, g.id ≠ f0.id →
        g ∈ (upsertFactStep scope user_id chat_id now db c).facts)) ∧
    (dupLookup db scope user_id chat_id (candText c) = none →
      (upsertFactStep scope user_id chat_id now db c).facts = db.facts ++
        [{ id := db.next_fact_id, scope := scope, user_id := user_id
           chat_id := chat_id, fact_text := candText c, embedding := candEmb c
           importance := _clamp01 (c.importance.getD (.valid (1/2)))
           confidence := _clamp01 (c.confidence.getD (.valid (4/5)))
           is_active := true, use_count := 0, last_used_at := none
           created_at := now, updated_at := now }]) ∧
    (0 ≤ _clamp01 (c.importance.getD (.valid (1/2))) ∧
      _clamp01 (c.importance.getD (.valid (1/2))) ≤ 1 ∧
      0 ≤ _clamp01 (c.confidence.getD (.valid (4/5))) ∧
      _clamp01 (c.confidence.getD (.valid (4/5))) ≤ 1) ∧
    (c.importance = some .invalid → _clamp01 (c.importance.getD (.valid (1/2))) = 0) ∧
    (c.confidence = some .invalid → _clamp01 (c.confidence.getD (.valid (4/5))) = 0) := by
  have hstep : upsertFactStep scope user_id chat_id now db c =
      keepAddNew db scope user_id chat_id (candText c) (candEmb c)
        (_clamp01 (c.importance.getD (.valid (1/2))))
        (_clamp01 (c.confidence.getD (.valid (4/5)))) now := by
    simp only [upsertFactStep]
    rw [if_neg htext, hact]
    rw [if_neg (show ¬ ("keep_add_new" = "noop") by decide)]
    rw [if_neg (show ¬ ("keep_add_new" = "update_existing" ∨
      "keep_add_new" = "deactivate_existing") by decide)]
  refine ⟨?_, ?_, ?_, ?_, ?_⟩
  · intro f0 hdup
    rw [hstep]
    unfold keepAddNew
    simp only [hdup]
    have hf0mem : f0 ∈ db.facts := List.mem_of_find?_eq_some hdup
    refine ⟨by simp, ?_, ?_⟩
    · refine List.mem_map.2 ⟨f0, hf0mem, ?_⟩
      simp
    · intro g hg hne
      refine List.mem_map.2 ⟨g, hg, ?_⟩
      have hneid : (g.id == f0.id) = false := by
        rw [beq_eq_false_iff_ne]
        exact hne
      simp [hneid]
  · intro hdup
    rw [hstep]
    unfold keepAddNew
    simp only [hdup]
  · exact ⟨(clamp01_bounds _).1, (clamp01_bounds _).2,
      (clamp01_bounds _).1, (clamp01_bounds _).2⟩
  · intro h
    rw [h]
    rfl
  · intro h
    rw [h]
    rfl

def c4db : MemoryDB ℚ :=
  { facts := [], profiles := [], memberships := [], events := []
    next_fact_id := 1, next_event_id := 1 }

/-- A fresh candidate with out-of-range importance and invalid confidence. -/
def c4cand : FactCandidate ℚ :=
  { fact := some "Alice likes tea", importance := some (.valid 2)
    confidence := some .invalid, embedding := some [1] }

/-- Nonvacuity for C4: into an empty store the candidate inserts exactly
one active row, with the invalid confidence clamped to 0. -/
theorem keep_add_new_semantics_witness :
    (upsertFactStep "user" (some 1) (some 100) 0 c4db c4cand).facts =
      c4db.facts ++
        [{ id := c4db.next_fact_id, scope := "user", user_id := some 1
           chat_id := some 100, fact_text := candText c4cand
           embedding := candEmb c4cand
           importance := _clamp01 (c4cand.importance.getD (.valid (1/2)))
           confidence := _clamp01 (c4cand.confidence.getD (.valid (4/5)))
           is_active := true, use_count := 0, last_used_at := none
           created_at := 0, updated_at := 0 }] ∧
    _clamp01 (c4cand.confidence.getD (.valid (4/5))) = 0 := by
  have h := keep_add_new_semantics c4db "user" (some 1) (some 100) c4cand 0
    (by decide) (by decide)
  exact ⟨h.2.1 (by decide), h.2.2.2.2 rfl⟩

/-! Rows persist through the resolver -/

lemma pairwise_ids_map {l : List (Fact K)} (upd : Fact K → Fact K)
    (hupd : ∀ f, (upd f).id = f.id) (h : l.Pairwise fun a b => a.id ≠ b.id) :
    (l.map upd).Pairwise fun a b => a.id ≠ b.id := by
  rw [List.pairwise_map]
  exact h.imp fun hne => by rw [hupd, hupd]; exact hne

lemma mem_get_user_facts {db : MemoryDB K} {u : Int} {lim : Nat} {s : String}
    (h : s ∈ get_user_facts db u lim) :
    ∃ g, g ∈ db.facts ∧ userFactRow u g = true ∧ g.fact_text = s := by
  unfold get_user_facts at h
  obtain ⟨g, hg, hgs⟩ := List.mem_map.1 h
  have hg2 := List.take_subset _ _ hg
  rw [mem_sortRows] at hg2
  obtain ⟨hmem, hrow⟩ := List.mem_filter.1 hg2
  exact ⟨g, hmem, hrow, hgs⟩

lemma mem_get_chat_facts {db : MemoryDB K} {cid : Int} {lim : Nat} {s : String}
    (h : s ∈ get_chat_facts db cid lim) :
    ∃ g, g ∈ db.facts ∧
      (g.scope == "chat" && g.chat_id == some cid && g.is_active) = true ∧
      g.fact_text = s := by
  unfold get_chat_facts at h
  obtain ⟨g, hg, hgs⟩ := List.mem_map.1 h
  have hg2 := List.take_subset _ _ hg
  rw [mem_sortRows] at hg2
  obtain ⟨hmem, hrow⟩ := List.mem_filter.1 hg2
  exact ⟨g, hmem, hrow, hgs⟩

lemma mem_map_update_id {l : List (Fact K)} {f : Fact K} (hf : f ∈ l)
    (upd : Fact K → Fact K) (hupd : ∀ g, (upd g).id = g.id) :
    ∃ f', f' ∈ l.map upd ∧ f'.id = f.id :=
  ⟨upd f, List.mem_map_of_mem upd hf, hupd f⟩

lemma keepAddNew_row_persists (db : MemoryDB K) (scope : String)
    (user_id chat_id : Option Int) (text : String) (emb : Option (List K))
    (imp conf now : K) (f : Fact K) (hf : f ∈ db.facts) :
    ∃ f', f' ∈ (keepAddNew db scope user_id chat_id text emb imp conf now).facts ∧
      f'.id = f.id := by
  unfold keepAddNew
  cases hdup : dupLookup db scope user_id chat_id text with
  | none => exact ⟨f, List.mem_append_left _ hf, rfl⟩
  | some f0 => exact mem_map_update_id hf _ (fun g => by split <;> rfl)

lemma upsertFactStep_row_persists (db : MemoryDB K) (scope : String)
    (user_id chat_id : Option Int) (c : FactCandidate K) (now : K)
    (f : Fact K) (hf : f ∈ db.facts) :
    ∃ f', f' ∈ (upsertFactStep scope user_id chat_id now db c).facts ∧
      f'.id = f.id := by
  simp only [upsertFactStep]
  by_cases h1 : candText c = ""
  · rw [if_pos h1]
    exact ⟨f, hf, rfl⟩
  · rw [if_neg h1]
    by_cases h2 : candAction c = "noop"
    · rw [if_pos h2]
      exact ⟨f, hf, rfl⟩
    · rw [if_neg h2]
      split
      · split
        · split
          · exact mem_map_update_id hf _ (fun g => by split <;> rfl)
          · exact mem_map_update_id hf _ (fun g => by split <;> rfl)
        · exact keepAddNew_row_persists db scope user_id chat_id (candText c)
            (candEmb c) _ _ now f hf
      · exact keepAddNew_row_persists db scope user_id chat_id (candText c)
          (candEmb c) _ _ now f hf

lemma upsert_facts_rows_persist (scope : String) (user_id chat_id : Option Int)
    (now : K) (cands : List (FactCandidate K)) :
    ∀ db : MemoryDB K, ∀ f ∈ db.facts,
      ∃ f', f' ∈ (_upsert_facts scope user_id chat_id cands now db).facts ∧
        f'.id = f.id := by
  induction cands with
  | nil => exact fun db f hf => ⟨f, hf, rfl⟩
  | cons c cs ih =>
      intro db f hf
      obtain ⟨f1, hf1, hid1⟩ := upsertFactStep_row_persists db scope user_id
        chat_id c now f hf
      obtain ⟨f2, hf2, hid2⟩ := ih (upsertFactStep scope user_id chat_id now db c) f1 hf1
      exact ⟨f2, hf2, hid2.trans hid1⟩

lemma upsertFactStep_deactivate_eq (db : MemoryDB K) (scope : String)
    (user_id chat_id : Option Int) (c : FactCandidate K) (now : K) (tid : Int)
    (f1 : Fact K)
    (htext : candText c ≠ "")
    (hact : candAction c = "deactivate_existing")
    (hT : candTarget c = some tid)
    (hL : targetLookup db scope user_id chat_id tid = some f1) :
    upsertFactStep scope user_id chat_id now db c =
      { db with facts := db.facts.map fun f =>
          if f.id == tid then { f with is_active := false, updated_at := now }
          else f } := by
  simp only [upsertFactStep]
  rw [if_neg htext, hact]
  rw [if_neg (show ¬ ("deactivate_existing" = "noop") by decide)]
  rw [if_pos (Or.inr rfl)]
  simp only [hT, hL]
  rw [if_pos trivial]

lemma upsertFactStep_update_eq (db : MemoryDB K) (scope : String)
    (user_id chat_id : Option Int) (c : FactCandidate K) (now : K) (tid : Int)
    (f1 : Fact K)
    (htext : candText c ≠ "")
    (hact : candAction c = "update_existing")
    (hT : candTarget c = some tid)
    (hL : targetLookup db scope user_id chat_id tid = some f1) :
    upsertFactStep scope user_id chat_id now db c =
      { db with facts := db.facts.map fun f =>
          if f.id == tid then
            { f with
              fact_text := candText c
              embedding := coalesce (candEmb c) f.embedding
              importance := _clamp01 (c.importance.getD (.valid (1/2)))
              confidence := _clamp01 (c.confidence.getD (.valid (4/5)))
              is_active := true, updated_at := now }
          else f } := by
  simp only [upsertFactStep]
  rw [if_neg htext, hact]
  rw [if_neg (show ¬ ("update_existing" = "noop") by decide)]
  rw [if_pos (Or.inl rfl)]
  simp only [hT, hL]
  rw [if_neg (show ¬ ("update_existing" = "deactivate_existing") by decide)]

/-- Claim C7: a resolver deactivation only flips `is_active` (stamping
`updated_at`): the row keeps its id and content, disappears from every
embedding search and scope listing, can be reactivated by a later
`update_existing` on its id, and the resolver never physically deletes any
row. -/
theorem deactivation_is_soft (db : MemoryDB K) (scope : String)
    (user_id chat_id : Option Int) (c : FactCandidate K) (now : K) (f0 : Fact K)
    (hids : db.facts.Pairwise fun a b => a.id ≠ b.id)
    (htext : candText c ≠ "")
    (hact : candAction c = "deactivate_existing")
    (hT : candTarget c = some f0.id)
    (hL : targetLookup db scope user_id chat_id f0.id = some f0) :
    ({ f0 with is_active := false, updated_at := now } ∈
      (upsertFactStep scope user_id chat_id now db c).facts ∧
     (∀ g ∈ db.facts, g.id ≠ f0.id →
       g ∈ (upsertFactStep scope user_id chat_id now db c).facts) ∧
     (upsertFactStep scope user_id chat_id now db c).facts.length =
       db.facts.length) ∧
    (∀ sqrt exp : K → K, ∀ q : List K, ∀ cid2 aid : Int, ∀ lim : Nat,
      ∀ ms cd now2 : K,
      ∀ e ∈ search_facts_by_embedding sqrt exp
        (upsertFactStep scope user_id chat_id now db c) q cid2 aid lim ms cd now2,
        e.fact_id ≠ f0.id) ∧
    (∀ uid2 : Int, ∀ lim : Nat,
      ∀ s ∈ get_user_facts (upsertFactStep scope user_id chat_id now db c) uid2 lim,
      ∃ g, g ∈ (upsertFactStep scope user_id chat_id now db c).facts ∧
        g.id ≠ f0.id ∧ g.fact_text = s) ∧
    (∀ cid2 : Int, ∀ lim : Nat,
      ∀ s ∈ get_chat_facts (upsertFactStep scope user_id chat_id now db c) cid2 lim,
      ∃ g, g ∈ (upsertFactStep scope user_id chat_id now db c).facts ∧
        g.id ≠ f0.id ∧ g.fact_text = s) ∧
    (∀ (c2 : FactCandidate K) (now2 : K),
      candText c2 ≠ "" → candAction c2 = "update_existing" →
      candTarget c2 = some f0.id →
      targetLookup (upsertFactStep scope user_id chat_id now db c) scope
        user_id chat_id f0.id =
        some { f0 with is_active := false, updated_at := now } →
      { f0 with
        fact_text := candText c2
        embedding := coalesce (candEmb c2) f0.embedding
        importance := _clamp01 (c2.importance.getD (.valid (1/2)))
        confidence := _clamp01 (c2.confidence.getD (.valid (4/5)))
        is_active := true, updated_at := now2 } ∈
        (upsertFactStep scope user_id chat_id now2
          (upsertFactStep scope user_id chat_id now db c) c2).facts) ∧
    (∀ (cands : List (FactCandidate K)) (db2 : MemoryDB K) (scope2 : String)
      (u2 ch2 : Option Int) (now3 : K), ∀ g ∈ db2.facts,
      ∃ g', g' ∈ (_upsert_facts scope2 u2 ch2 cands now3 db2).facts ∧
        g'.id = g.id) := by
  have hstep : upsertFactStep scope user_id chat_id now db c =
      { db with facts := db.facts.map fun f =>
          if f.id == f0.id then { f with is_active := false, updated_at := now }
          else f } :=
    upsertFactStep_deactivate_eq db scope user_id chat_id c now f0.id f0
      htext hact hT hL
  have hf0mem : f0 ∈ db.facts := List.mem_of_find?_eq_some hL
  have hupd : ∀ g : Fact K,
      ((fun f : Fact K => if f.id == f0.id then
        { f with is_active := false, updated_at := now } else f) g).id = g.id := by
    intro g
    by_cases hc : (g.id == f0.id) = true <;> simp [hc]
  have hids' : (upsertFactStep scope user_id chat_id now db c).facts.Pairwise
      fun a b => a.id ≠ b.id := by
    rw [hstep]
    exact pairwise_ids_map _ hupd hids
  have hmem' : { f0 with is_active := false, updated_at := now } ∈
      (upsertFactStep scope user_id chat_id now db c).facts := by
    rw [hstep]
    refine List.mem_map.2 ⟨f0, hf0mem, ?_⟩
    simp
  refine ⟨⟨hmem', ?_, ?_⟩, ?_, ?_, ?_, ?_, ?_⟩
  · intro g hg hne
    rw [hstep]
    refine List.mem_map.2 ⟨g, hg, ?_⟩
    have hneid : (g.id == f0.id) = false := by
      rw [beq_eq_false_iff_ne]
      exact hne
    simp [hneid]
  · rw [hstep]
    simp
  · intro sqrt exp q cid2 aid lim ms cd now2 e he
    have h := search_excludes (f := { f0 with is_active := false, updated_at := now })
      hids' hmem' (Or.inl rfl) e he
    exact h
  · intro uid2 lim s hs
    obtain ⟨g, hg, hrow, hgs⟩ := mem_get_user_facts hs
    refine ⟨g, hg, ?_, hgs⟩
    intro hgid
    have hgf : g = { f0 with is_active := false, updated_at := now } :=
      eq_of_mem_of_id_eq (fun x => x.id) hids' hg hmem' hgid
    unfold userFactRow at hrow
    rw [hgf] at hrow
    simp at hrow
  · intro cid2 lim s hs
    obtain ⟨g, hg, hrow, hgs⟩ := mem_get_chat_facts hs
    refine ⟨g, hg, ?_, hgs⟩
    intro hgid
    have hgf : g = { f0 with is_active := false, updated_at := now } :=
      eq_of_mem_of_id_eq (fun x => x.id) hids' hg hmem' hgid
    rw [hgf] at hrow
    simp at hrow
  · intro c2 now2 ht2 ha2 hT2 hL2
    have hstep2 : upsertFactStep scope user_id chat_id now2
        (upsertFactStep scope user_id chat_id now db c) c2 =
        { (upsertFactStep scope user_id chat_id now db c) with
          facts := (upsertFactStep scope user_id chat_id now db c).facts.map
            fun f => if f.id == f0.id then
              { f with
                fact_text := candText c2
                embedding := coalesce (candEmb c2) f.embedding
                importance := _clamp01 (c2.importance.getD (.valid (1/2)))
                confidence := _clamp01 (c2.confidence.getD (.valid (4/5)))
                is_active := true, updated_at := now2 }
            else f } :=
      upsertFactStep_update_eq _ scope user_id chat_id c2 now2 f0.id
        { f0 with is_active := false, updated_at := now } ht2 ha2 hT2 hL2
    rw [hstep2]
    refine List.mem_map.2 ⟨{ f0 with is_active := false, updated_at := now }, hmem', ?_⟩
    simp
  · intro cands db2 scope2 u2 ch2 now3 g hg
    exact upsert_facts_rows_persist scope2 u2 ch2 now3 cands db2 g hg

def c7fact : Fact ℚ :=
  { id := 1, scope := "user", user_id := some 1, chat_id := some 100
    fact_text := "z", embedding := some [1], importance := 1, confidence := 1
    is_active := true, use_count := 0, last_used_at := none
    created_at := 0, updated_at := 0 }

def c7db : MemoryDB ℚ :=
  { facts := [c7fact], profiles := [], memberships := [], events := []
    next_fact_id := 2, next_event_id := 1 }

def c7cand : FactCandidate ℚ :=
  { fact := some "z", action := some "deactivate_existing"
    target_fact_id := some (.valid 1) }

def c7cand2 : FactCandidate ℚ :=
  { fact := some "z2", action := some "update_existing"
    target_fact_id := some (.valid 1) }

/-- Nonvacuity for C7: concretely deactivate fact 1, observe it excluded
from search, then reactivate it through `update_existing`. -/
theorem deactivation_is_soft_witness :
    { c7fact with is_active := false, updated_at := (5:ℚ) } ∈
      (upsertFactStep "user" (some 1) (some 100) 5 c7db c7cand).facts ∧
    (∀ e ∈ search_facts_by_embedding (fun x => x) (fun x => x)
        (upsertFactStep "user" (some 1) (some 100) 5 c7db c7cand) [(1:ℚ)]
        100 1 3 0 900 5, e.fact_id ≠ c7fact.id) ∧
    { c7fact with
      fact_text := candText c7cand2
      embedding := coalesce (candEmb c7cand2) c7fact.embedding
      importance := _clamp01 (c7cand2.importance.getD (.valid (1/2)))
      confidence := _clamp01 (c7cand2.confidence.getD (.valid (4/5)))
      is_active := true, updated_at := (6:ℚ) } ∈
      (upsertFactStep "user" (some 1) (some 100) 6
        (upsertFactStep "user" (some 1) (some 100) 5 c7db c7cand) c7cand2).facts := by
  have h := deactivation_is_soft c7db "user" (some 1) (some 100) c7cand 5 c7fact
    (by simp [c7db]) (by decide) (by decide) (by decide) (by decide)
  exact ⟨h.1.1,
    fun e he => h.2.1 (fun x => x) (fun x => x) [(1:ℚ)] 100 1 3 0 900 5 e he,
    h.2.2.2.2.1 c7cand2 6 (by decide) (by decide) (by decide) (by decide)⟩

lemma map_eq_self {α : Type} {l : List α} {f : α → α} (h : ∀ a ∈ l, f a = a) :
    l.map f = l := by
  induction l with
  | nil => rfl
  | cons a as ih =>
      rw [List.map_cons, h a (List.mem_cons_self a as),
        ih fun b hb => h b (List.mem_cons_of_mem a hb)]

/-- Claim C10: `update_fact_text` succeeds exactly when an owned user-scope
row with that id exists; on success it rewrites the text, clears the
embedding (hiding the row from both similarity searches until a new
embedding is stored) and re-stamps `updated_at`, leaving every other row
untouched and the row still visible in the plain listing; on failure the
store is unchanged and nothing is raised. -/
theorem update_fact_text_contract (db : MemoryDB K) (fid uid : Int)
    (new_text : String) (now : K) :
    ((update_fact_text db fid uid new_text now).2 = true ↔
      ∃ f, f ∈ db.facts ∧ f.id = fid ∧ f.user_id = some uid ∧ f.scope = "user") ∧
    ((update_fact_text db fid uid new_text now).2 = false →
      update_fact_text db fid uid new_text now = (db, false)) ∧
    (∀ f ∈ db.facts, editableRow fid uid f = true →
      { f with fact_text := new_text, embedding := none, updated_at := now } ∈
        (update_fact_text db fid uid new_text now).1.facts) ∧
    (∀ g ∈ db.facts, editableRow fid uid g = false →
      g ∈ (update_fact_text db fid uid new_text now).1.facts) ∧
    (db.facts.Pairwise (fun a b => a.id ≠ b.id) →
      ∀ f ∈ db.facts, editableRow fid uid f = true →
      (∀ sqrt exp : K → K, ∀ q : List K, ∀ cid2 aid : Int, ∀ lim : Nat,
        ∀ ms cd now2 : K,
        ∀ e ∈ search_facts_by_embedding sqrt exp
          (update_fact_text db fid uid new_text now).1 q cid2 aid lim ms cd now2,
          e.fact_id ≠ fid) ∧
      (∀ sqrt : K → K, ∀ scope2 : String, ∀ q : List K, ∀ u2 c2 : Option Int,
        ∀ lim : Nat, ∀ ms : K,
        ∀ r ∈ find_similar_facts sqrt
          (update_fact_text db fid uid new_text now).1 scope2 q u2 c2 lim ms,
          r.fact_id ≠ fid)) ∧
    (db.facts.Pairwise (fun a b => a.id ≠ b.id) →
      ∀ f ∈ db.facts, editableRow fid uid f = true → f.is_active = true →
      (∀ g ∈ db.facts, editableRow fid uid g = false → g.updated_at < now) →
      ∀ lim : Nat, 1 ≤ lim →
        new_text ∈ get_user_facts (update_fact_text db fid uid new_text now).1 uid lim) := by
  have hupd : ∀ g : Fact K,
      ((fun f : Fact K => if editableRow fid uid f then
        { f with fact_text := new_text, embedding := none, updated_at := now }
        else f) g).id = g.id := by
    intro g
    by_cases hc : editableRow fid uid g = true <;> simp [hc]
  have hmem3 : ∀ f ∈ db.facts, editableRow fid uid f = true →
      { f with fact_text := new_text, embedding := none, updated_at := now } ∈
        (update_fact_text db fid uid new_text now).1.facts := by
    intro f hf hp
    refine List.mem_map.2 ⟨f, hf, ?_⟩
    simp [hp]
  have hids' : db.facts.Pairwise (fun a b => a.id ≠ b.id) →
      (update_fact_text db fid uid new_text now).1.facts.Pairwise
        fun a b => a.id ≠ b.id := by
    intro hids
    exact pairwise_ids_map _ hupd hids
  refine ⟨?_, ?_, hmem3, ?_, ?_, ?_⟩
  · show db.facts.any (editableRow fid uid) = true ↔ _
    rw [List.any_eq_true]
    constructor
    · rintro ⟨f, hf, hp⟩
      unfold editableRow at hp
      simp only [Bool.and_eq_true, beq_iff_eq] at hp
      exact ⟨f, hf, hp.1.1, hp.1.2, hp.2⟩
    · rintro ⟨f, hf, h1, h2, h3⟩
      refine ⟨f, hf, ?_⟩
      unfold editableRow
      simp only [Bool.and_eq_true, beq_iff_eq]
      exact ⟨⟨h1, h2⟩, h3⟩
  · intro hfalse
    have hfalse' : db.facts.any (editableRow fid uid) = false := hfalse
    have hall := List.any_eq_false.1 hfalse'
    have hmap : db.facts.map (fun f => if editableRow fid uid f then
        { f with fact_text := new_text, embedding := none, updated_at := now }
        else f) = db.facts := by
      apply map_eq_self
      intro g hg
      rw [if_neg (by simpa using hall g hg)]
    unfold update_fact_text
    rw [hmap, hfalse']
  · intro g hg hgn
    refine List.mem_map.2 ⟨g, hg, ?_⟩
    simp [hgn]
  · intro hids f hf hp
    have hfid : f.id = fid := by
      unfold editableRow at hp
      simp only [Bool.and_eq_true, beq_iff_eq] at hp
      exact hp.1.1
    have hf' := hmem3 f hf hp
    constructor
    · intro sqrt exp q cid2 aid lim ms cd now2 e he
      have hx := search_excludes (hids' hids) hf' (Or.inr (Or.inl rfl)) e he
      exact fun hEq => hx (hEq.trans hfid.symm)
    · intro sqrt scope2 q u2 c2 lim ms r hr
      have hx := find_similar_excludes (hids' hids) hf' (Or.inr rfl) r hr
      exact fun hEq => hx (hEq.trans hfid.symm)
  · intro hids f hf hp hactive hrec lim hlim
    unfold editableRow at hp
    simp only [Bool.and_eq_true, beq_iff_eq] at hp
    have hp' : editableRow fid uid f = true := by
      unfold editableRow
      simp only [Bool.and_eq_true, beq_iff_eq]
      exact hp
    have hf' := hmem3 f hf hp'
    have hrow' : userFactRow uid
        { f with fact_text := new_text, embedding := none, updated_at := now } = true := by
      unfold userFactRow
      simp only [Bool.and_eq_true, beq_iff_eq]
      exact ⟨⟨hp.2, hp.1.2⟩, hactive⟩
    have htot : ∀ a b : Fact K, updatedDesc a b = true ∨ updatedDesc b a = true := by
      intro a b
      simp only [updatedDesc, decide_eq_true_eq]
      exact le_total b.updated_at a.updated_at
    have htrans : ∀ a b c : Fact K, updatedDesc a b = true → updatedDesc b c = true →
        updatedDesc a c = true := by
      intro a b c
      simp only [updatedDesc, decide_eq_true_eq]
      intro h1 h2
      exact le_trans h2 h1
    have hfmem' : { f with fact_text := new_text, embedding := none, updated_at := now } ∈
        ((update_fact_text db fid uid new_text now).1.facts.filter (userFactRow uid)) :=
      List.mem_filter.2 ⟨hf', hrow'⟩
    have hbest : ∀ b ∈ ((update_fact_text db fid uid new_text now).1.facts.filter
        (userFactRow uid)),
        b ≠ { f with fact_text := new_text, embedding := none, updated_at := now } →
        updatedDesc b
          { f with fact_text := new_text, embedding := none, updated_at := now } =
          false := by
      intro b hb hbne
      have hbmem : b ∈ (update_fact_text db fid uid new_text now).1.facts :=
        (List.mem_filter.1 hb).1
      obtain ⟨g, hg, hgb⟩ := List.mem_map.1 hbmem
      by_cases hge : editableRow fid uid g = true
      · exfalso
        apply hbne
        have hbid : b.id = fid := by
          rw [← hgb]
          simp only [hge, if_true]
          unfold editableRow at hge
          simp only [Bool.and_eq_true, beq_iff_eq] at hge
          exact hge.1.1
        refine eq_of_mem_of_id_eq (fun x => x.id) (hids' hids) hbmem hf' ?_
        exact hbid.trans hp.1.1.symm
      · have hgb2 : b = g := by
          rw [← hgb]
          simp [hge]
        rw [hgb2]
        unfold updatedDesc
        apply decide_eq_false
        exact not_le.2 (hrec g hg (by simpa using hge))
    have hmemtake := mem_take_sortRows_of_best updatedDesc htot htrans
      _ _ hfmem' hbest lim hlim
    exact List.mem_map_of_mem _ hmemtake

def c10f : Fact ℚ :=
  { id := 1, scope := "user", user_id := some 1, chat_id := some 100
    fact_text := "old", embedding := some [1], importance := 1, confidence := 1
    is_active := true, use_count := 0, last_used_at := none
    created_at := 0, updated_at := 0 }

def c10g : Fact ℚ :=
  { id := 2, scope := "user", user_id := some 2, chat_id := some 100
    fact_text := "other", embedding := some [1], importance := 1, confidence := 1
    is_active := true, use_count := 0, last_used_at := none
    created_at := 0, updated_at := 0 }

def c10db : MemoryDB ℚ :=
  { facts := [c10f, c10g], profiles := [], memberships := [], events := []
    next_fact_id := 3, next_event_id := 1 }

/-- Nonvacuity for C10: editing fact 1 succeeds and hides it from the
embedding search while the new text shows up in the listing; editing with
the wrong owner fails and changes nothing. -/
theorem update_fact_text_contract_witness :
    (update_fact_text c10db 1 1 "edited" 5).2 = true ∧
    (update_fact_text c10db 1 9 "nope" 5) = (c10db, false) ∧
    (∀ e ∈ search_facts_by_embedding (fun x => x) (fun x => x)
        (update_fact_text c10db 1 1 "edited" 5).1 [(1:ℚ)] 100 1 3 0 900 5,
      e.fact_id ≠ 1) ∧
    "edited" ∈ get_user_facts (update_fact_text c10db 1 1 "edited" 5).1 1 30 := by
  have h := update_fact_text_contract (K := ℚ) c10db 1 1 "edited" 5
  have h9 := update_fact_text_contract (K := ℚ) c10db 1 9 "nope" 5
  have hpair : c10db.facts.Pairwise (fun a b => a.id ≠ b.id) := by
    simp [c10db, c10f, c10g]
  have hmem : c10f ∈ c10db.facts := List.mem_cons_self _ _
  have hrec : ∀ g ∈ c10db.facts, editableRow 1 1 g = false → g.updated_at < 5 := by
    intro g hg hgn
    rcases List.mem_cons.1 hg with rfl | hg2
    · exact absurd hgn (by decide)
    · rcases List.mem_cons.1 hg2 with rfl | hg3
      · show (0:ℚ) < 5
        norm_num
      · cases hg3
  refine ⟨?_, ?_, ?_, ?_⟩
  · exact h.1.2 ⟨c10f, hmem, rfl, rfl, rfl⟩
  · exact h9.2.1 (by decide)
  · intro e he
    exact (h.2.2.2.2.1 hpair c10f hmem (by decide)).1 (fun x => x) (fun x => x)
      [(1:ℚ)] 100 1 3 0 900 5 e he
  · exact h.2.2.2.2.2 hpair c10f hmem (by decide) rfl hrec 30 (by norm_num)

def c8db : MemoryDB ℚ :=
  { facts := [], profiles := [], memberships := [], events := []
    next_fact_id := 1, next_event_id := 1 }

/-- Claim C8 (code bug): replaying the claim's scenario — which is also the
repo's own test `test_upsert_scheduled_event_updates_existing` — the
second upsert with the changed title "X (corrected)" does not touch the
first row because the active-row lookup key includes `title`, so
`get_events_for_date "03-15"` still returns the original event titled "X"
instead of the empty list the claim and the test expect. -/
theorem scheduled_event_title_key_bug :
    (get_events_for_date
      (upsert_scheduled_event
        (upsert_scheduled_event c8db (some 1) 100 "birthday" "03-15" "X" none 0)
        (some 1) 100 "birthday" "04-20" "X (corrected)" none 1) "03-15").map
      (fun e => e.title) = ["X"] ∧
    (get_events_for_date
      (upsert_scheduled_event
        (upsert_scheduled_event c8db (some 1) 100 "birthday" "03-15" "X" none 0)
        (some 1) 100 "birthday" "04-20" "X (corrected)" none 1) "04-20").map
      (fun e => e.title) = ["X (corrected)"] := by
  constructor <;> decide

/-- Claim C9, counterexample: on a store with no profile row,
`update_profile` stores nothing — no row with the given text exists after
the call, contradicting "creating the row if no row with that identity id
exists". -/
theorem update_profile_no_creation_counterexample :
    ¬ ∃ p, p ∈ (update_profile c8db 7 "hello" none 0).profiles ∧
      p.profile = "hello" := by
  rintro ⟨p, hp, -⟩
  rw [show (update_profile c8db 7 "hello" none (0:ℚ)).profiles = [] from rfl] at hp
  cases hp

/-- Claim C9 as amended: `update_profile` overwrites `profile_text`,
`profile_embedding` and `updated_at` of an existing identity row and
leaves other rows alone; when no row with that identity exists it creates
nothing and raises nothing (it only logs a warning). -/
theorem update_profile_update_only (db : MemoryDB K) (uid : Int) (text : String)
    (emb : Option (List K)) (now : K) :
    ((∀ p ∈ db.profiles, p.user_id ≠ uid) →
      update_profile db uid text emb now = db) ∧
    (∀ p ∈ db.profiles, p.user_id = uid →
      { p with
        profile := text
        profile_embedding := profileEmbJson emb
        updated_at := some now } ∈ (update_profile db uid text emb now).profiles) ∧
    (∀ p ∈ db.profiles, p.user_id ≠ uid →
      p ∈ (update_profile db uid text emb now).profiles) := by
  refine ⟨?_, ?_, ?_⟩
  · intro hnone
    unfold update_profile
    rw [map_eq_self fun p hp =>
      if_neg (by simp only [beq_iff_eq]; exact hnone p hp)]
  · intro p hp hpid
    refine List.mem_map.2 ⟨p, hp, ?_⟩
    simp [hpid]
  · intro p hp hpid
    refine List.mem_map.2 ⟨p, hp, ?_⟩
    have hne : (p.user_id == uid) = false := by
      rw [beq_eq_false_iff_ne]
      exact hpid
    simp [hne]

def c9prof : UserProfile ℚ :=
  { user_id := 1, username := "a", first_name := "Alice", msg_count := 3
    profile := "old", profile_embedding := none, updated_at := none }

def c9db : MemoryDB ℚ :=
  { facts := [], profiles := [c9prof], memberships := [], events := []
    next_fact_id := 1, next_event_id := 1 }

/-- Nonvacuity for the amended C9: updating a present row rewrites it,
updating an absent identity leaves the store unchanged. -/
theorem update_profile_update_only_witness :
    update_profile c9db 2 "x" none 5 = c9db ∧
    { c9prof with
      profile := "new"
      profile_embedding := profileEmbJson (none : Option (List ℚ))
      updated_at := some (5:ℚ) } ∈ (update_profile c9db 1 "new" none 5).profiles := by
  have h2 := update_profile_update_only (K := ℚ) c9db 2 "x" none 5
  have h1 := update_profile_update_only (K := ℚ) c9db 1 "new" none 5
  exact ⟨h2.1 (by decide), h1.2.1 c9prof (List.mem_singleton.2 rfl) rfl⟩

end Bot
